import Mathlib

/-!
Shallow embedding of the concurrent multi-provider evaluation harness of the
`llm-evaluations` repository (src/experiments/red_flag_detection and
src/experiments/financials_calculation), together with proofs settling the
frozen claims about it.

Modelling conventions:
* Python `float` values are modelled as exact rationals `ℚ`; where a float can
  be `float('inf')` (the regression metric fields and the values inspected by
  the ranking selectors) we use `PyFloat := WithTop ℚ`, whose top element `⊤`
  plays the role of `+inf` and `math.isinf v` is `v = ⊤`.  Negative infinity
  and NaN never arise from the exact arithmetic of the embedded code paths.
* Python `math.sqrt` is binary floating point; it is modelled as an abstract
  parameter `sqrt : ℚ → ℚ` threaded through the regression evaluator.  No
  claim depends on the value of `sqrt` on a nonempty input.
* Each provider worker (`_call_openai` and its four siblings) is an imperative
  loop whose interaction with the network/client is modelled by an
  `ItemOutcome` attached to each input item, classifying which of the loop's
  code paths that iteration takes.
-/

namespace LLMEval

/-- Python float as used by the metric records and selectors: an exact rational
or positive infinity (`⊤`, the image of Python `float('inf')`). -/
abbrev PyFloat := WithTop ℚ

/-- Python `math.isinf` on the values reachable in this program (no `-inf`,
no NaN): true exactly on `⊤`. -/
def PyFloat.isInf (v : PyFloat) : Prop := v = ⊤

instance : DecidablePred PyFloat.isInf := fun v => decEq v ⊤

/-- Python `min(l, key=key)` on a nonempty list `best :: rest`: scans left to
right, replacing the current best only on strict decrease, hence returning the
first element attaining the minimal key. -/
def pyMinBy {α β : Type} [LinearOrder β] (key : α → β) : α → List α → α
  | best, [] => best
  | best, x :: xs => pyMinBy key (if key x < key best then x else best) xs

/-- Python `max(l, key=key)` on a nonempty list `best :: rest`: scans left to
right, replacing the current best only on strict increase, hence returning the
first element attaining the maximal key. -/
def pyMaxBy {α β : Type} [LinearOrder β] (key : α → β) : α → List α → α
  | best, [] => best
  | best, x :: xs => pyMaxBy key (if key x > key best then x else best) xs

/-- Arithmetic mean of a list of rationals, 0 for the empty list.  Used only to
state claims about the `average_cost` / `average_duration` fields. -/
def listMean (l : List ℚ) : ℚ :=
  if l = [] then 0 else l.sum / l.length

/-- The five configured backends (`"openai"`, `"anthropic"`, `"gemini"`,
`"kimi"`, `"deepseek"` in both experiments' `run`). -/
inductive Provider where
  | openai | anthropic | gemini | kimi | deepseek
deriving DecidableEq, Repr

/-- The fixed list of all five providers, in the order `run` submits them. -/
def Provider.all : List Provider :=
  [.openai, .anthropic, .gemini, .kimi, .deepseek]

/-- The string key under which each backend appears in the results dicts and
in the best-model fields. -/
def Provider.name : Provider → String
  | .openai => "openai"
  | .anthropic => "anthropic"
  | .gemini => "gemini"
  | .kimi => "kimi"
  | .deepseek => "deepseek"

/-- One `if results.X: models.append((name, getattr(results.X, metric)))` line
of a `_find_best_model_by_metric` body: the singleton contribution of a
present slot, nothing for an absent one. -/
def slotEntry {γ : Type} (slot : Option γ) (s : String) (metric : γ → PyFloat) :
    List (String × PyFloat) :=
  match slot with
  | some m => [(s, metric m)]
  | none => []

namespace RFD

/-! Red-flag-detection experiment (src/experiments/red_flag_detection). -/

/-- One input item as consumed by the workers: the loops read
`company["ticker"]` and `company.get("label")` (the financial-metrics payload
is opaque to the core and carried only inside the prompt). -/
structure Company where
  ticker : String
  label : String
deriving DecidableEq, Repr

/-- Validated payload of the `red_flag_detection` tool call
(tools.py, `RedFlagDetectionOutput`). -/
structure RedFlagDetectionOutput where
  has_red_flags : Bool
  reasoning : String
deriving DecidableEq, Repr

/-- experiment.py, `LLMPredictionResult`: a single prediction record. -/
structure LLMPredictionResult where
  ticker : String
  model : String
  prediction : Bool
  ground_truth : Bool
  ground_truth_label : String
  reasoning : String
  cost : ℚ
  duration : ℚ
deriving DecidableEq, Repr

/-- experiment.py, `ModelResults`: all results from one backend. -/
structure ModelResults where
  model_provider : String
  model_name : String
  predictions : List LLMPredictionResult
  average_cost : ℚ
  average_duration : ℚ
deriving DecidableEq, Repr

/-- experiment.py, `ExperimentResults`: one optional `ModelResults` slot per
backend; `none` models a worker whose loop raised (`results[provider] = None`). -/
structure ExperimentResults where
  openai : Option ModelResults := none
  anthropic : Option ModelResults := none
  gemini : Option ModelResults := none
  kimi : Option ModelResults := none
  deepseek : Option ModelResults := none
deriving DecidableEq, Repr

/-- The slot of `ExperimentResults` belonging to a given provider. -/
def ExperimentResults.slot (r : ExperimentResults) : Provider → Option ModelResults
  | .openai => r.openai
  | .anthropic => r.anthropic
  | .gemini => r.gemini
  | .kimi => r.kimi
  | .deepseek => r.deepseek

/-- judge.py, `ModelEvaluationMetrics`.  The float-typed metric fields are
`PyFloat` (a Python float field can in principle hold `inf`); the values the
judge itself computes are always finite coercions from `ℚ`. -/
structure ModelEvaluationMetrics where
  model_provider : String
  model_name : String
  total_predictions : ℕ
  correct_predictions : ℕ
  accuracy : PyFloat
  precision : PyFloat
  «recall» : PyFloat
  f1_score : PyFloat
  true_positives : ℕ
  false_positives : ℕ
  true_negatives : ℕ
  false_negatives : ℕ
  average_cost : ℚ
  average_duration : ℚ
deriving DecidableEq, Repr

/-- judge.py, `ComparisonResults` (the red-flag judge's own class): it has
metric slots only for openai, anthropic and gemini — unlike this experiment's
`ExperimentResults`, which also carries kimi and deepseek slots. -/
structure ComparisonResults where
  openai : Option ModelEvaluationMetrics := none
  anthropic : Option ModelEvaluationMetrics := none
  gemini : Option ModelEvaluationMetrics := none
  best_accuracy_model : Option String := none
  best_f1_model : Option String := none
deriving DecidableEq, Repr

/-- The metrics entry of the judge's `ComparisonResults` for a given backend:
the corresponding field where one exists, and `none` for kimi/deepseek, for
which the class has no field at all (the serialized output has no such key). -/
def ComparisonResults.entryFor (cr : ComparisonResults) : Provider → Option ModelEvaluationMetrics
  | .openai => cr.openai
  | .anthropic => cr.anthropic
  | .gemini => cr.gemini
  | .kimi => none
  | .deepseek => none

/-- judge.py lines 59-93, `RedFlagDetectionJudge._evaluate_model`: confusion
matrix by pairwise comparison, then the four zero-guarded ratio metrics. -/
def evaluateModel (mr : ModelResults) : ModelEvaluationMetrics :=
  let predictions := mr.predictions
  let tp := predictions.countP (fun p => p.prediction && p.ground_truth)
  let fp := predictions.countP (fun p => p.prediction && !p.ground_truth)
  let tn := predictions.countP (fun p => !p.prediction && !p.ground_truth)
  let fn := predictions.countP (fun p => !p.prediction && p.ground_truth)
  let total := predictions.length
  let correct := tp + tn
  let accuracy : ℚ := if total > 0 then (correct : ℚ) / (total : ℚ) else 0
  let precision : ℚ := if tp + fp > 0 then (tp : ℚ) / ((tp : ℚ) + (fp : ℚ)) else 0
  let «recall» : ℚ := if tp + fn > 0 then (tp : ℚ) / ((tp : ℚ) + (fn : ℚ)) else 0
  let f1_score : ℚ :=
    if 0 < precision + «recall» then 2 * (precision * «recall») / (precision + «recall») else 0
  { model_provider := mr.model_provider
    model_name := mr.model_name
    total_predictions := total
    correct_predictions := correct
    accuracy := (accuracy : PyFloat)
    precision := (precision : PyFloat)
    «recall» := («recall» : PyFloat)
    f1_score := (f1_score : PyFloat)
    true_positives := tp
    false_positives := fp
    true_negatives := tn
    false_negatives := fn
    average_cost := mr.average_cost
    average_duration := mr.average_duration }

/-- The `models` list built by judge.py lines 97-104: `(name, value)` for each
present slot, in the fixed openai/anthropic/gemini order. -/
def collectModels (results : ComparisonResults)
    (metric : ModelEvaluationMetrics → PyFloat) : List (String × PyFloat) :=
  slotEntry results.openai "openai" metric ++
  slotEntry results.anthropic "anthropic" metric ++
  slotEntry results.gemini "gemini" metric

/-- judge.py lines 95-111, `RedFlagDetectionJudge._find_best_model_by_metric`:
collects `(name, getattr(metrics, metric))` over the three present slots and
takes Python `max` by value.  Note: unlike the financials judge, this function
does not filter out non-finite values. -/
def findBestModelByMetric (results : ComparisonResults)
    (metric : ModelEvaluationMetrics → PyFloat) : Option String :=
  match collectModels results metric with
  | [] => none
  | m :: ms => some (pyMaxBy Prod.snd m ms).1

/-- judge.py lines 35-57, `RedFlagDetectionJudge.evaluate`: evaluates the
openai/anthropic/gemini slots when present (kimi/deepseek slots of
`ExperimentResults` are never read), then fills the two best-model fields. -/
def evaluate (results : ExperimentResults) : ComparisonResults :=
  let withMetrics : ComparisonResults :=
    { openai := results.openai.map evaluateModel
      anthropic := results.anthropic.map evaluateModel
      gemini := results.gemini.map evaluateModel }
  { withMetrics with
    best_accuracy_model := findBestModelByMetric withMetrics (fun m => m.accuracy)
    best_f1_model := findBestModelByMetric withMetrics (fun m => m.f1_score) }

end RFD

namespace FinCalc

/-! Financials-calculation experiment (src/experiments/financials_calculation). -/

/-- One input item as consumed by the workers: the loops read
`company["ticker"]` and `company.get("cost_of_revenue")` (the XBRL facts are
opaque to the core).  `cost_of_revenue` may be missing (`None`). -/
structure Company where
  ticker : String
  cost_of_revenue : Option ℚ
deriving DecidableEq, Repr

/-- Validated payload of the `cost_of_revenue_calculation` tool call
(tools.py, `CostOfRevenueCalculationOutput`). -/
structure CostOfRevenueCalculationOutput where
  cost_of_revenue : ℚ
  method : String
  formula_used : String
  reasoning : String
  confidence : String
deriving DecidableEq, Repr

/-- experiment.py, `CostOfRevenuePredictionResult`.  The judge defensively
treats `prediction`/`ground_truth` as possibly `None` (judge.py lines 55-57),
so they are modelled as `Option ℚ`; the worker only ever stores present
values. -/
structure CostOfRevenuePredictionResult where
  ticker : String
  model : String
  prediction : Option ℚ
  ground_truth : Option ℚ
  reasoning : String
  method : String
  formula_used : String
  confidence : String
  cost : ℚ
  duration : ℚ
deriving DecidableEq, Repr

/-- experiment.py, `ModelResults` (financials variant). -/
structure ModelResults where
  model_provider : String
  model_name : String
  predictions : List CostOfRevenuePredictionResult
  average_cost : ℚ
  average_duration : ℚ
deriving DecidableEq, Repr

/-- experiment.py, `ExperimentResults` (financials variant): one optional
`ModelResults` slot per backend. -/
structure ExperimentResults where
  openai : Option ModelResults := none
  anthropic : Option ModelResults := none
  gemini : Option ModelResults := none
  kimi : Option ModelResults := none
  deepseek : Option ModelResults := none
deriving DecidableEq, Repr

/-- The slot of the financials `ExperimentResults` for a given provider. -/
def ExperimentResults.slot (r : ExperimentResults) : Provider → Option ModelResults
  | .openai => r.openai
  | .anthropic => r.anthropic
  | .gemini => r.gemini
  | .kimi => r.kimi
  | .deepseek => r.deepseek

/-- common/models.py, `RegressionEvaluationMetrics`.  Metric fields are
`PyFloat` because several of them are set to `float('inf')` sentinels. -/
structure RegressionEvaluationMetrics where
  model_provider : String
  model_name : String
  total_predictions : ℕ
  mean_absolute_error : PyFloat
  mean_squared_error : PyFloat
  root_mean_squared_error : PyFloat
  mean_absolute_percentage_error : PyFloat
  r_squared : PyFloat
  accuracy_within_5_percent : PyFloat
  accuracy_within_10_percent : PyFloat
  accuracy_within_20_percent : PyFloat
  average_cost : ℚ
  average_duration : ℚ
deriving DecidableEq, Repr

/-- common/models.py, `RegressionComparisonResults`: five metric slots plus
four best-model pointers. -/
structure RegressionComparisonResults where
  openai : Option RegressionEvaluationMetrics := none
  anthropic : Option RegressionEvaluationMetrics := none
  gemini : Option RegressionEvaluationMetrics := none
  kimi : Option RegressionEvaluationMetrics := none
  deepseek : Option RegressionEvaluationMetrics := none
  best_mae_model : Option String := none
  best_rmse_model : Option String := none
  best_r2_model : Option String := none
  best_accuracy_5pct_model : Option String := none
deriving DecidableEq, Repr

/-- The metrics entry of `RegressionComparisonResults` for a given backend. -/
def RegressionComparisonResults.entryFor (cr : RegressionComparisonResults) :
    Provider → Option RegressionEvaluationMetrics
  | .openai => cr.openai
  | .anthropic => cr.anthropic
  | .gemini => cr.gemini
  | .kimi => cr.kimi
  | .deepseek => cr.deepseek

/-- judge.py lines 106-122, `FinancialsCalculationJudge._calculate_percentage_accuracy`:
fraction of valid pairs whose relative error is within the threshold (a pair
with zero ground truth counts exactly when the prediction is also zero),
times 100. -/
def calculatePercentageAccuracy (valid_pairs : List (ℚ × ℚ)) (threshold : ℚ) : ℚ :=
  if valid_pairs = [] then 0
  else
    let within_threshold := valid_pairs.countP (fun pt =>
      if pt.2 = 0 then pt.1 = 0 else |(pt.1 - pt.2) / pt.2| ≤ threshold)
    ((within_threshold : ℚ) / (valid_pairs.length : ℚ)) * 100

/-- judge.py lines 124-140, `FinancialsCalculationJudge._empty_metrics`:
the degenerate record returned when there are no valid predictions. -/
def emptyMetrics (mr : ModelResults) : RegressionEvaluationMetrics :=
  { model_provider := mr.model_provider
    model_name := mr.model_name
    total_predictions := 0
    mean_absolute_error := ⊤
    mean_squared_error := ⊤
    root_mean_squared_error := ⊤
    mean_absolute_percentage_error := ⊤
    r_squared := ((0 : ℚ) : PyFloat)
    accuracy_within_5_percent := ((0 : ℚ) : PyFloat)
    accuracy_within_10_percent := ((0 : ℚ) : PyFloat)
    accuracy_within_20_percent := ((0 : ℚ) : PyFloat)
    average_cost := mr.average_cost
    average_duration := mr.average_duration }

/-- The `(prediction, ground_truth)` pair of a record when both are present:
judge.py lines 52-57 zip the prediction and ground-truth columns and drop any
pair containing `None`. -/
def validPair (p : CostOfRevenuePredictionResult) : Option (ℚ × ℚ) :=
  match p.prediction, p.ground_truth with
  | some pred, some gt => some (pred, gt)
  | _, _ => none

/-- judge.py lines 44-104, `FinancialsCalculationJudge._evaluate_model`.
`sqrt` abstracts Python `math.sqrt` (floating point). -/
def evaluateModel (sqrt : ℚ → ℚ) (mr : ModelResults) : RegressionEvaluationMetrics :=
  let predictions := mr.predictions
  if predictions = [] then emptyMetrics mr
  else
    let valid_pairs := predictions.filterMap validPair
    if valid_pairs = [] then emptyMetrics mr
    else
      let n := valid_pairs.length
      let mae : ℚ := (valid_pairs.map (fun pt => |pt.1 - pt.2|)).sum / (n : ℚ)
      let mse : ℚ := (valid_pairs.map (fun pt => (pt.1 - pt.2) ^ 2)).sum / (n : ℚ)
      let rmse : ℚ := sqrt mse
      let mape_values : List ℚ :=
        (valid_pairs.filter (fun pt => pt.2 ≠ 0)).map (fun pt => |(pt.1 - pt.2) / pt.2|)
      let mape : PyFloat :=
        if mape_values = [] then ⊤
        else ((mape_values.sum / (mape_values.length : ℚ) * 100 : ℚ) : PyFloat)
      let y_mean : ℚ := (valid_pairs.map (fun pt => pt.2)).sum / (n : ℚ)
      let ss_tot : ℚ := (valid_pairs.map (fun pt => (pt.2 - y_mean) ^ 2)).sum
      let ss_res : ℚ := (valid_pairs.map (fun pt => (pt.2 - pt.1) ^ 2)).sum
      let r_squared : ℚ := if ss_tot ≠ 0 then 1 - ss_res / ss_tot else 0
      { model_provider := mr.model_provider
        model_name := mr.model_name
        total_predictions := n
        mean_absolute_error := (mae : PyFloat)
        mean_squared_error := (mse : PyFloat)
        root_mean_squared_error := (rmse : PyFloat)
        mean_absolute_percentage_error := mape
        r_squared := (r_squared : PyFloat)
        accuracy_within_5_percent := ((calculatePercentageAccuracy valid_pairs (5/100)) : PyFloat)
        accuracy_within_10_percent := ((calculatePercentageAccuracy valid_pairs (10/100)) : PyFloat)
        accuracy_within_20_percent := ((calculatePercentageAccuracy valid_pairs (20/100)) : PyFloat)
        average_cost := mr.average_cost
        average_duration := mr.average_duration }

/-- The `models` list built by judge.py lines 144-155: `(name, value)` for each
present slot, in the fixed provider order. -/
def collectModels (results : RegressionComparisonResults)
    (metric : RegressionEvaluationMetrics → PyFloat) : List (String × PyFloat) :=
  slotEntry results.openai "openai" metric ++
  slotEntry results.anthropic "anthropic" metric ++
  slotEntry results.gemini "gemini" metric ++
  slotEntry results.kimi "kimi" metric ++
  slotEntry results.deepseek "deepseek" metric

/-- judge.py lines 142-171, `FinancialsCalculationJudge._find_best_model_by_metric`:
collects `(name, value)` over present slots, returns `None` when nothing is
present, filters out infinite values (`math.isinf`), returns `None` when no
finite entry remains, and otherwise takes Python `min`/`max` by value according
to `lower_is_better`. -/
def findBestModelByMetric (results : RegressionComparisonResults)
    (metric : RegressionEvaluationMetrics → PyFloat) (lower_is_better : Bool) : Option String :=
  let models := collectModels results metric
  if models = [] then none
  else
    let valid_models := models.filter (fun nv => ¬ nv.2.isInf)
    match valid_models with
    | [] => none
    | v :: vs =>
      if lower_is_better then some (pyMinBy Prod.snd v vs).1
      else some (pyMaxBy Prod.snd v vs).1

/-- judge.py lines 8-42, `FinancialsCalculationJudge.evaluate`: evaluates each
of the five present slots, then fills the four best-model pointers. -/
def evaluate (sqrt : ℚ → ℚ) (results : ExperimentResults) : RegressionComparisonResults :=
  let withMetrics : RegressionComparisonResults :=
    { openai := results.openai.map (evaluateModel sqrt)
      anthropic := results.anthropic.map (evaluateModel sqrt)
      gemini := results.gemini.map (evaluateModel sqrt)
      kimi := results.kimi.map (evaluateModel sqrt)
      deepseek := results.deepseek.map (evaluateModel sqrt) }
  { withMetrics with
    best_mae_model := findBestModelByMetric withMetrics (fun m => m.mean_absolute_error) true
    best_rmse_model := findBestModelByMetric withMetrics (fun m => m.root_mean_squared_error) true
    best_r2_model := findBestModelByMetric withMetrics (fun m => m.r_squared) false
    best_accuracy_5pct_model :=
      findBestModelByMetric withMetrics (fun m => m.accuracy_within_5_percent) false }

end FinCalc

/-! Worker loops.  Each `_call_*` method iterates the companies sequentially;
the body of each iteration sits in one `try/except Exception: continue` block.
The interaction with the client/response object on one iteration is classified
by `ItemOutcome`, matching the mutually exclusive code paths of the body. -/

/-- The code path taken by one loop iteration of a `_call_*` worker, with the
values the environment supplies on that path:
* `err`: the client call (or the timing around it) raised — nothing is
  accumulated and the `except` clause moves to the next item;
* `errAfterTime`: the call returned and its duration was added to
  `total_time`, but reading the usage fields raised before `total_cost` was
  updated;
* `noTool`: usage was read (cost and duration accumulated) but the response
  carried no tool call — the item is skipped via `continue`;
* `invalid`: usage was read, a tool call was found, but parsing/validating its
  arguments raised — the `except` clause skips the item;
* `ok`: usage was read and the arguments validated into a payload `ρ`. -/
inductive ItemOutcome (ρ : Type) where
  | err
  | errAfterTime (dur : ℚ)
  | noTool (cost dur : ℚ)
  | invalid (cost dur : ℚ)
  | ok (cost dur : ℚ) (payload : ρ)
deriving DecidableEq, Repr

/-- The amount one iteration adds to the worker's `total_cost` accumulator. -/
def ItemOutcome.accCost {ρ : Type} : ItemOutcome ρ → ℚ
  | .err => 0
  | .errAfterTime _ => 0
  | .noTool c _ => c
  | .invalid c _ => c
  | .ok c _ _ => c

/-- The amount one iteration adds to the worker's `total_time` accumulator. -/
def ItemOutcome.accTime {ρ : Type} : ItemOutcome ρ → ℚ
  | .err => 0
  | .errAfterTime d => d
  | .noTool _ d => d
  | .invalid _ d => d
  | .ok _ d _ => d

/-- The iteration produced a validated payload (took the `ok` path). -/
def ItemOutcome.isOk {ρ : Type} : ItemOutcome ρ → Prop
  | .ok _ _ _ => True
  | _ => False

instance {ρ : Type} : DecidablePred (ItemOutcome.isOk (ρ := ρ)) := fun o =>
  match o with
  | .ok _ _ _ => isTrue trivial
  | .err => isFalse fun h => h
  | .errAfterTime _ => isFalse fun h => h
  | .noTool _ _ => isFalse fun h => h
  | .invalid _ _ => isFalse fun h => h

/-- The record an item contributes: built by `mk` on the `ok` path, nothing on
every skipped path. -/
def okRecord {ι ρ π : Type} (mk : ι → ℚ → ℚ → ρ → Option π) (it : ι × ItemOutcome ρ) :
    Option π :=
  match it.2 with
  | .ok c d payload => mk it.1 c d payload
  | _ => none

/-- The `for company in companies` loop shared by every `_call_*` worker: the
accumulators are `predictions`, `total_cost` and `total_time`; `mk` builds the
prediction record out of the item, the call's cost/duration and the validated
payload (`mk` returns `none` when the record constructor itself raises a
validation error, e.g. a `None` ground truth — cost and time stay accumulated
but no record is appended). -/
def workerLoop {ι ρ π : Type} (mk : ι → ℚ → ℚ → ρ → Option π) :
    List π → ℚ → ℚ → List (ι × ItemOutcome ρ) → List π × ℚ × ℚ
  | preds, total_cost, total_time, [] => (preds, total_cost, total_time)
  | preds, total_cost, total_time, (it, o) :: rest =>
    match o with
    | .err => workerLoop mk preds total_cost total_time rest
    | .errAfterTime d => workerLoop mk preds total_cost (total_time + d) rest
    | .noTool c d => workerLoop mk preds (total_cost + c) (total_time + d) rest
    | .invalid c d => workerLoop mk preds (total_cost + c) (total_time + d) rest
    | .ok c d payload =>
      match mk it c d payload with
      | some r => workerLoop mk (preds ++ [r]) (total_cost + c) (total_time + d) rest
      | none => workerLoop mk preds (total_cost + c) (total_time + d) rest

namespace RFD

/-- The record appended by `RedFlagDetectionExperiment._call_openai`
(experiment.py lines 154-163): ground truth is `label != "Green Flag"`.
Record construction always succeeds here (all fields are present). -/
def mkOpenAIRecord (c : Company) (cost dur : ℚ) (p : RedFlagDetectionOutput) :
    Option LLMPredictionResult :=
  some { ticker := c.ticker
         model := "o3"
         prediction := p.has_red_flags
         ground_truth := c.label != "Green Flag"
         ground_truth_label := c.label
         reasoning := p.reasoning
         cost := cost
         duration := dur }

/-- experiment.py lines 102-177, `RedFlagDetectionExperiment._call_openai`:
runs the worker loop and wraps the accumulators into a `ModelResults`, with
`total / len(predictions) if predictions else 0` averages.  The other four
workers differ only in constants and response unwrapping. -/
def callOpenAI (items : List (Company × ItemOutcome RedFlagDetectionOutput)) : ModelResults :=
  let res := workerLoop mkOpenAIRecord [] 0 0 items
  let predictions := res.1
  let total_cost := res.2.1
  let total_time := res.2.2
  { model_provider := "openai"
    model_name := "o3"
    predictions := predictions
    average_cost := if predictions = [] then 0 else total_cost / (predictions.length : ℚ)
    average_duration := if predictions = [] then 0 else total_time / (predictions.length : ℚ) }

end RFD

namespace FinCalc

/-- The record appended by `FinancialsCalculationExperiment._call_openai`
(experiment.py lines 206-217).  When `company.get("cost_of_revenue")` is
`None`, pydantic rejects the float field `ground_truth` and the constructor
raises, so the item is skipped (`none`). -/
def mkOpenAIRecord (c : Company) (cost dur : ℚ) (p : CostOfRevenueCalculationOutput) :
    Option CostOfRevenuePredictionResult :=
  match c.cost_of_revenue with
  | some gt =>
    some { ticker := c.ticker
           model := "o3"
           prediction := some p.cost_of_revenue
           ground_truth := some gt
           reasoning := p.reasoning
           method := p.method
           formula_used := p.formula_used
           confidence := p.confidence
           cost := cost
           duration := dur }
  | none => none

/-- experiment.py lines 151-231, `FinancialsCalculationExperiment._call_openai`:
same loop shape as the red-flag worker. -/
def callOpenAI (items : List (Company × ItemOutcome CostOfRevenueCalculationOutput)) :
    ModelResults :=
  let res := workerLoop mkOpenAIRecord [] 0 0 items
  let predictions := res.1
  let total_cost := res.2.1
  let total_time := res.2.2
  { model_provider := "openai"
    model_name := "o3"
    predictions := predictions
    average_cost := if predictions = [] then 0 else total_cost / (predictions.length : ℚ)
    average_duration := if predictions = [] then 0 else total_time / (predictions.length : ℚ) }

end FinCalc

/-! The Dispatcher (`run` in both experiments): five workers are submitted to a
thread pool; `as_completed` yields each future exactly once, in an arbitrary
completion order; each result (or `None` on an exception escaping the worker)
is written under the provider's key; finally each slot is read back with
`results.get(provider)`. -/

/-- The outcome of one worker's whole loop as observed through its future:
either the returned `ModelResults`-like value, or an uncaught exception. -/
inductive WorkerOutcome (μ : Type) where
  | ok (r : μ)
  | raised (msg : String)

/-- What the `try/except` around `future.result()` stores in the results dict:
the value on success, `None` when the worker raised. -/
def WorkerOutcome.toOption {μ : Type} : WorkerOutcome μ → Option μ
  | .ok r => some r
  | .raised _ => none

/-- The results dict built by the `for future in as_completed(...)` loop, as an
association list in completion order.  Each provider key is written exactly
once (its future completes once). -/
def gatherResults {μ : Type} (order : List Provider) (outcome : Provider → WorkerOutcome μ) :
    List (Provider × Option μ) :=
  order.map (fun p => (p, (outcome p).toOption))

/-- Python `results.get(provider)`: the stored value (which may itself be
`None`) if the key is present, `None` otherwise.  Keys are unique in every
dict this models, so first-match lookup coincides with dict lookup. -/
def dictGet {μ : Type} : List (Provider × Option μ) → Provider → Option μ
  | [], _ => none
  | (q, v) :: rest, p => if q = p then v else dictGet rest p

namespace RFD

/-- experiment.py lines 52-85, `RedFlagDetectionExperiment.run`, as a function
of the workers' outcomes and of the completion order produced by
`as_completed`: collects each worker's result (absent on an uncaught worker
exception) and assembles the five slots of `ExperimentResults`. -/
def run (order : List Provider) (outcome : Provider → WorkerOutcome ModelResults) :
    ExperimentResults :=
  let results := gatherResults order outcome
  { openai := dictGet results .openai
    anthropic := dictGet results .anthropic
    gemini := dictGet results .gemini
    kimi := dictGet results .kimi
    deepseek := dictGet results .deepseek }

end RFD

namespace FinCalc

/-- experiment.py lines 54-87, `FinancialsCalculationExperiment.run`:
structurally identical to the red-flag dispatcher. -/
def run (order : List Provider) (outcome : Provider → WorkerOutcome ModelResults) :
    ExperimentResults :=
  let results := gatherResults order outcome
  { openai := dictGet results .openai
    anthropic := dictGet results .anthropic
    gemini := dictGet results .gemini
    kimi := dictGet results .kimi
    deepseek := dictGet results .deepseek }

end FinCalc

/-! Concrete fixtures used by scenario instances, counterexamples and
witnesses. -/

namespace RFD

/-- A classification prediction record with the given predicted and true
labels (the other fields are irrelevant to the judge's metric computation). -/
def mkPred (pr gt : Bool) : LLMPredictionResult :=
  { ticker := "TST", model := "o3", prediction := pr, ground_truth := gt
    ground_truth_label := "", reasoning := "", cost := 0, duration := 0 }

/-- Scenario A of the spec: predictions [T,T,F,F] against ground truth
[T,F,F,F]. -/
def scenarioA : ModelResults :=
  { model_provider := "openai", model_name := "o3"
    predictions := [mkPred true true, mkPred true false, mkPred false false, mkPred false false]
    average_cost := 0, average_duration := 0 }

/-- A `ModelResults` with an empty prediction list. -/
def emptyModelResults : ModelResults :=
  { model_provider := "openai", model_name := "o3", predictions := []
    average_cost := 0, average_duration := 0 }

/-- A metrics record with a prescribed accuracy value (remaining fields are
irrelevant to the selector, which only reads the named metric). -/
def mkMetricsWithAccuracy (provider : String) (acc : PyFloat) : ModelEvaluationMetrics :=
  { model_provider := provider, model_name := "m", total_predictions := 0
    correct_predictions := 0, accuracy := acc, precision := ((0 : ℚ) : PyFloat)
    «recall» := ((0 : ℚ) : PyFloat), f1_score := ((0 : ℚ) : PyFloat)
    true_positives := 0, false_positives := 0, true_negatives := 0
    false_negatives := 0, average_cost := 0, average_duration := 0 }

/-- A `ComparisonResults` in which openai carries an infinite accuracy value
and anthropic a finite one. -/
def comparisonWithInfAccuracy : ComparisonResults :=
  { openai := some (mkMetricsWithAccuracy "openai" ⊤)
    anthropic := some (mkMetricsWithAccuracy "anthropic" ((1 : ℚ) : PyFloat)) }

/-- An `ExperimentResults` in which only the kimi worker produced a (non-absent)
result set. -/
def kimiOnlyResults : ExperimentResults :=
  { kimi := some scenarioA }

/-- A fixed validated tool payload. -/
def someOutput : RedFlagDetectionOutput :=
  { has_red_flags := true, reasoning := "r" }

/-- Worker input where the first item succeeds with cost 1 and duration 1 and
the second item's response carries usage (cost 1, duration 1) but no tool
call. -/
def itemsOkThenNoTool : List (Company × ItemOutcome RedFlagDetectionOutput) :=
  [(⟨"AAA", "Green Flag"⟩, .ok 1 1 someOutput),
   (⟨"BBB", "Red Flag"⟩, .noTool 1 1)]

/-- Worker input with two successes of different costs and one client-side
failure in between. -/
def itemsAllOkOrErr : List (Company × ItemOutcome RedFlagDetectionOutput) :=
  [(⟨"AAA", "Green Flag"⟩, .ok 1 2 someOutput),
   (⟨"BBB", "Red Flag"⟩, .err),
   (⟨"CCC", "Red Flag"⟩, .ok 3 4 someOutput)]

end RFD

namespace FinCalc

/-- A regression prediction record with the given prediction/ground-truth
columns (remaining fields are irrelevant to the judge). -/
def mkPred (pred gt : Option ℚ) : CostOfRevenuePredictionResult :=
  { ticker := "TST", model := "o3", prediction := pred, ground_truth := gt
    reasoning := "", method := "calculation", formula_used := "", confidence := "High"
    cost := 0, duration := 0 }

/-- A `ModelResults` holding the given prediction records. -/
def mkModelResults (preds : List CostOfRevenuePredictionResult) : ModelResults :=
  { model_provider := "openai", model_name := "o3", predictions := preds
    average_cost := 0, average_duration := 0 }

/-- A metrics record with a prescribed mean-absolute-error value (remaining
fields are irrelevant to the selector run on the MAE metric). -/
def mkMetricsWithMAE (provider : String) (mae : PyFloat) : RegressionEvaluationMetrics :=
  { model_provider := provider, model_name := "m", total_predictions := 0
    mean_absolute_error := mae, mean_squared_error := ((0 : ℚ) : PyFloat)
    root_mean_squared_error := ((0 : ℚ) : PyFloat)
    mean_absolute_percentage_error := ((0 : ℚ) : PyFloat)
    r_squared := ((0 : ℚ) : PyFloat)
    accuracy_within_5_percent := ((0 : ℚ) : PyFloat)
    accuracy_within_10_percent := ((0 : ℚ) : PyFloat)
    accuracy_within_20_percent := ((0 : ℚ) : PyFloat)
    average_cost := 0, average_duration := 0 }

/-- Scenario D of the spec: three backends with MAE values 50, infinity
and 30. -/
def scenarioDComparison : RegressionComparisonResults :=
  { openai := some (mkMetricsWithMAE "openai" ((50 : ℚ) : PyFloat))
    anthropic := some (mkMetricsWithMAE "anthropic" ⊤)
    gemini := some (mkMetricsWithMAE "gemini" ((30 : ℚ) : PyFloat)) }

/-- Scenario C of the spec: a single pair with prediction 5 and ground
truth 0. -/
def scenarioCModelResults : ModelResults :=
  mkModelResults [mkPred (some 5) (some 0)]

/-- Scenario B of the spec: pairs (110, 100) and (90, 100). -/
def scenarioBModelResults : ModelResults :=
  mkModelResults [mkPred (some 110) (some 100), mkPred (some 90) (some 100)]

/-- A nonempty prediction list every entry of which is missing its columns, so
that the valid-pair set is empty. -/
def allMissingModelResults : ModelResults :=
  mkModelResults [mkPred none none, mkPred (some 1) none, mkPred none (some 1)]

end FinCalc

/-! Theorems.  Everything below this point is a lemma or a claim theorem;
no further definitions occur. -/

/-- The four confusion-matrix counters partition the prediction list. -/
theorem countP_confusion_partition (l : List RFD.LLMPredictionResult) :
    l.countP (fun p => p.prediction && p.ground_truth) +
      l.countP (fun p => p.prediction && !p.ground_truth) +
      l.countP (fun p => !p.prediction && !p.ground_truth) +
      l.countP (fun p => !p.prediction && p.ground_truth) = l.length := by
  induction l with
  | nil => simp
  | cons h t ih =>
    simp only [List.countP_cons, List.length_cons]
    cases hp : h.prediction <;> cases hg : h.ground_truth <;> simp <;> omega

/-- Unfolding lemma: the accuracy field of the classification metrics. -/
theorem evaluateModel_accuracy_def (mr : RFD.ModelResults) :
    (RFD.evaluateModel mr).accuracy =
      ((if 0 < mr.predictions.length then
          ((mr.predictions.countP (fun p => p.prediction && p.ground_truth) +
            mr.predictions.countP (fun p => !p.prediction && !p.ground_truth) : ℕ) : ℚ) /
            (mr.predictions.length : ℚ)
        else 0 : ℚ) : PyFloat) := rfl

/-- Unfolding lemma: the precision field of the classification metrics. -/
theorem evaluateModel_precision_def (mr : RFD.ModelResults) :
    (RFD.evaluateModel mr).precision =
      ((if mr.predictions.countP (fun p => p.prediction && p.ground_truth) +
            mr.predictions.countP (fun p => p.prediction && !p.ground_truth) > 0 then
          ((mr.predictions.countP (fun p => p.prediction && p.ground_truth) : ℕ) : ℚ) /
            (((mr.predictions.countP (fun p => p.prediction && p.ground_truth) : ℕ) : ℚ) +
             ((mr.predictions.countP (fun p => p.prediction && !p.ground_truth) : ℕ) : ℚ))
        else 0 : ℚ) : PyFloat) := rfl

/-- Unfolding lemma: the recall field of the classification metrics. -/
theorem evaluateModel_recall_def (mr : RFD.ModelResults) :
    (RFD.evaluateModel mr).«recall» =
      ((if mr.predictions.countP (fun p => p.prediction && p.ground_truth) +
            mr.predictions.countP (fun p => !p.prediction && p.ground_truth) > 0 then
          ((mr.predictions.countP (fun p => p.prediction && p.ground_truth) : ℕ) : ℚ) /
            (((mr.predictions.countP (fun p => p.prediction && p.ground_truth) : ℕ) : ℚ) +
             ((mr.predictions.countP (fun p => !p.prediction && p.ground_truth) : ℕ) : ℚ))
        else 0 : ℚ) : PyFloat) := rfl

/-- Unfolding lemma: the f1 field, as a function of the precision and recall
rationals. -/
theorem evaluateModel_f1_def (mr : RFD.ModelResults) :
    (RFD.evaluateModel mr).f1_score =
      (((fun (prec rc : ℚ) =>
          if 0 < prec + rc then 2 * (prec * rc) / (prec + rc) else 0)
        (if mr.predictions.countP (fun p => p.prediction && p.ground_truth) +
            mr.predictions.countP (fun p => p.prediction && !p.ground_truth) > 0 then
          ((mr.predictions.countP (fun p => p.prediction && p.ground_truth) : ℕ) : ℚ) /
            (((mr.predictions.countP (fun p => p.prediction && p.ground_truth) : ℕ) : ℚ) +
             ((mr.predictions.countP (fun p => p.prediction && !p.ground_truth) : ℕ) : ℚ))
        else 0)
        (if mr.predictions.countP (fun p => p.prediction && p.ground_truth) +
            mr.predictions.countP (fun p => !p.prediction && p.ground_truth) > 0 then
          ((mr.predictions.countP (fun p => p.prediction && p.ground_truth) : ℕ) : ℚ) /
            (((mr.predictions.countP (fun p => p.prediction && p.ground_truth) : ℕ) : ℚ) +
             ((mr.predictions.countP (fun p => !p.prediction && p.ground_truth) : ℕ) : ℚ))
        else 0) : ℚ) : PyFloat) := rfl

/-- A zero-guarded ratio of a numerator over a total that dominates it lies in
the unit interval. -/
theorem guarded_ratio_bounds (c t : ℕ) (hct : c ≤ t) :
    0 ≤ (if 0 < t then (c : ℚ) / (t : ℚ) else 0) ∧
      (if 0 < t then (c : ℚ) / (t : ℚ) else 0) ≤ 1 := by
  split
  next h =>
    have ht : (0 : ℚ) < (t : ℚ) := by exact_mod_cast h
    exact ⟨by positivity, by rw [div_le_one ht]; exact_mod_cast hct⟩
  next => simp

/-- A zero-guarded fraction of the form a/(a+b) lies in the unit interval. -/
theorem guarded_fraction_bounds (a b : ℕ) :
    0 ≤ (if a + b > 0 then (a : ℚ) / ((a : ℚ) + (b : ℚ)) else 0) ∧
      (if a + b > 0 then (a : ℚ) / ((a : ℚ) + (b : ℚ)) else 0) ≤ 1 := by
  split
  next h =>
    have hab : (0 : ℚ) < (a : ℚ) + (b : ℚ) := by exact_mod_cast h
    refine ⟨by positivity, ?_⟩
    rw [div_le_one hab]
    have : (0 : ℚ) ≤ (b : ℚ) := by positivity
    linarith
  next => simp

/-- The zero-guarded harmonic combination of two unit-interval values lies in
the unit interval. -/
theorem guarded_f1_bounds {p r : ℚ} (hp0 : 0 ≤ p) (hp1 : p ≤ 1) (hr0 : 0 ≤ r) (hr1 : r ≤ 1) :
    0 ≤ (if 0 < p + r then 2 * (p * r) / (p + r) else 0) ∧
      (if 0 < p + r then 2 * (p * r) / (p + r) else 0) ≤ 1 := by
  split
  next hpr =>
    refine ⟨by positivity, ?_⟩
    rw [div_le_one hpr]
    nlinarith
  next => simp

/-- Coercing a unit-interval rational into `PyFloat` stays in the unit
interval. -/
theorem pyfloat_unit_of {q : ℚ} (h0 : 0 ≤ q) (h1 : q ≤ 1) :
    (0 : PyFloat) ≤ (q : PyFloat) ∧ (q : PyFloat) ≤ 1 := by
  rw [← WithTop.coe_zero, ← WithTop.coe_one]
  exact ⟨WithTop.coe_le_coe.2 h0, WithTop.coe_le_coe.2 h1⟩

/-- C9: for every list of boolean (prediction, ground_truth) pairs, the
classification evaluator satisfies tp + fp + tn + fn = total_predictions, and
each of accuracy, precision, recall and f1_score lies in [0, 1]. -/
theorem C9_classification_invariants (mr : RFD.ModelResults) :
    ((RFD.evaluateModel mr).true_positives + (RFD.evaluateModel mr).false_positives +
        (RFD.evaluateModel mr).true_negatives + (RFD.evaluateModel mr).false_negatives =
        (RFD.evaluateModel mr).total_predictions) ∧
    (0 ≤ (RFD.evaluateModel mr).accuracy ∧ (RFD.evaluateModel mr).accuracy ≤ 1) ∧
    (0 ≤ (RFD.evaluateModel mr).precision ∧ (RFD.evaluateModel mr).precision ≤ 1) ∧
    (0 ≤ (RFD.evaluateModel mr).«recall» ∧ (RFD.evaluateModel mr).«recall» ≤ 1) ∧
    (0 ≤ (RFD.evaluateModel mr).f1_score ∧ (RFD.evaluateModel mr).f1_score ≤ 1) := by
  have hpart := countP_confusion_partition mr.predictions
  refine ⟨hpart, ?_, ?_, ?_, ?_⟩
  · rw [evaluateModel_accuracy_def]
    have hle : mr.predictions.countP (fun p => p.prediction && p.ground_truth) +
        mr.predictions.countP (fun p => !p.prediction && !p.ground_truth) ≤
        mr.predictions.length := by omega
    have h := guarded_ratio_bounds _ _ hle
    exact pyfloat_unit_of h.1 h.2
  · rw [evaluateModel_precision_def]
    have h := guarded_fraction_bounds
      (mr.predictions.countP (fun p => p.prediction && p.ground_truth))
      (mr.predictions.countP (fun p => p.prediction && !p.ground_truth))
    exact pyfloat_unit_of h.1 h.2
  · rw [evaluateModel_recall_def]
    have h := guarded_fraction_bounds
      (mr.predictions.countP (fun p => p.prediction && p.ground_truth))
      (mr.predictions.countP (fun p => !p.prediction && p.ground_truth))
    exact pyfloat_unit_of h.1 h.2
  · rw [evaluateModel_f1_def]
    have hp := guarded_fraction_bounds
      (mr.predictions.countP (fun p => p.prediction && p.ground_truth))
      (mr.predictions.countP (fun p => p.prediction && !p.ground_truth))
    have hr := guarded_fraction_bounds
      (mr.predictions.countP (fun p => p.prediction && p.ground_truth))
      (mr.predictions.countP (fun p => !p.prediction && p.ground_truth))
    have h := guarded_f1_bounds hp.1 hp.2 hr.1 hr.2
    exact pyfloat_unit_of h.1 h.2

/-- Counting with a boolean predicate equals the source-shaped sum of
indicator ones over the matching propositional predicate. -/
theorem countP_eq_sum_indicator {α : Type} (P : α → Prop) [DecidablePred P] (b : α → Bool)
    (hb : ∀ a, b a = true ↔ P a) (l : List α) :
    l.countP b = (l.map (fun a => if P a then 1 else 0)).sum := by
  induction l with
  | nil => simp
  | cons h t ih =>
    simp only [List.countP_cons, List.map_cons, List.sum_cons, ih]
    by_cases hP : P h
    · simp only [(hb h).2 hP, if_pos hP, if_true]
      omega
    · have hbh : b h = false := by
        cases hbv : b h
        · rfl
        · exact absurd ((hb h).1 hbv) hP
      simp [hP, hbh]

/-- Flipping a positivity-guarded conditional into a zero-guarded one, over
naturals. -/
theorem guard_flip_nat {n : ℕ} (A : ℚ) :
    (if 0 < n then A else 0) = (if n = 0 then 0 else A) := by
  split_ifs <;> first | rfl | omega

/-- Flipping a positivity-guarded conditional into a zero-guarded one, for a
nonnegative rational condition. -/
theorem guard_flip_rat {x : ℚ} (hx : 0 ≤ x) (A : ℚ) :
    (if 0 < x then A else 0) = (if x = 0 then 0 else A) := by
  rcases eq_or_lt_of_le hx with h | h
  · rw [if_neg (by rw [← h]; exact lt_irrefl 0), if_pos h.symm]
  · rw [if_pos h, if_neg (ne_of_gt h)]

/-- C2: the classification evaluator computes the confusion counts by pairwise
comparison and the four zero-guarded ratio metrics from them; on Scenario A
(predictions [T,T,F,F] vs ground truth [T,F,F,F]) it returns tp=1, fp=1, tn=2,
fn=0, accuracy=3/4, precision=1/2, recall=1 and f1=2/3. -/
theorem C2_classification_metric_values (mr : RFD.ModelResults) :
    ((RFD.evaluateModel mr).true_positives =
        (mr.predictions.map (fun p =>
          if p.prediction = true ∧ p.ground_truth = true then 1 else 0)).sum ∧
      (RFD.evaluateModel mr).false_positives =
        (mr.predictions.map (fun p =>
          if p.prediction = true ∧ p.ground_truth = false then 1 else 0)).sum ∧
      (RFD.evaluateModel mr).true_negatives =
        (mr.predictions.map (fun p =>
          if p.prediction = false ∧ p.ground_truth = false then 1 else 0)).sum ∧
      (RFD.evaluateModel mr).false_negatives =
        (mr.predictions.map (fun p =>
          if p.prediction = false ∧ p.ground_truth = true then 1 else 0)).sum ∧
      (RFD.evaluateModel mr).total_predictions = mr.predictions.length) ∧
    ((RFD.evaluateModel mr).accuracy =
      ((if mr.predictions.length = 0 then 0
        else (((RFD.evaluateModel mr).true_positives +
               (RFD.evaluateModel mr).true_negatives : ℕ) : ℚ) /
          (mr.predictions.length : ℚ) : ℚ) : PyFloat)) ∧
    ((RFD.evaluateModel mr).precision =
      ((if (RFD.evaluateModel mr).true_positives + (RFD.evaluateModel mr).false_positives = 0
        then 0
        else (((RFD.evaluateModel mr).true_positives : ℕ) : ℚ) /
          ((((RFD.evaluateModel mr).true_positives : ℕ) : ℚ) +
           (((RFD.evaluateModel mr).false_positives : ℕ) : ℚ)) : ℚ) : PyFloat)) ∧
    ((RFD.evaluateModel mr).«recall» =
      ((if (RFD.evaluateModel mr).true_positives + (RFD.evaluateModel mr).false_negatives = 0
        then 0
        else (((RFD.evaluateModel mr).true_positives : ℕ) : ℚ) /
          ((((RFD.evaluateModel mr).true_positives : ℕ) : ℚ) +
           (((RFD.evaluateModel mr).false_negatives : ℕ) : ℚ)) : ℚ) : PyFloat)) ∧
    (∀ prec rc : ℚ,
      (RFD.evaluateModel mr).precision = (prec : PyFloat) →
      (RFD.evaluateModel mr).«recall» = (rc : PyFloat) →
      (RFD.evaluateModel mr).f1_score =
        ((if prec + rc = 0 then 0 else 2 * (prec * rc) / (prec + rc) : ℚ) : PyFloat)) ∧
    ((RFD.evaluateModel RFD.scenarioA).true_positives = 1 ∧
      (RFD.evaluateModel RFD.scenarioA).false_positives = 1 ∧
      (RFD.evaluateModel RFD.scenarioA).true_negatives = 2 ∧
      (RFD.evaluateModel RFD.scenarioA).false_negatives = 0 ∧
      (RFD.evaluateModel RFD.scenarioA).accuracy = ((3/4 : ℚ) : PyFloat) ∧
      (RFD.evaluateModel RFD.scenarioA).precision = ((1/2 : ℚ) : PyFloat) ∧
      (RFD.evaluateModel RFD.scenarioA).«recall» = ((1 : ℚ) : PyFloat) ∧
      (RFD.evaluateModel RFD.scenarioA).f1_score = ((2/3 : ℚ) : PyFloat)) := by
  have btp := countP_eq_sum_indicator
    (fun p : RFD.LLMPredictionResult => p.prediction = true ∧ p.ground_truth = true)
    (fun p => p.prediction && p.ground_truth)
    (fun a => by simp [Bool.and_eq_true]) mr.predictions
  have bfp := countP_eq_sum_indicator
    (fun p : RFD.LLMPredictionResult => p.prediction = true ∧ p.ground_truth = false)
    (fun p => p.prediction && !p.ground_truth)
    (fun a => by simp [Bool.and_eq_true, Bool.not_eq_true']) mr.predictions
  have btn := countP_eq_sum_indicator
    (fun p : RFD.LLMPredictionResult => p.prediction = false ∧ p.ground_truth = false)
    (fun p => !p.prediction && !p.ground_truth)
    (fun a => by simp [Bool.and_eq_true, Bool.not_eq_true']) mr.predictions
  have bfn := countP_eq_sum_indicator
    (fun p : RFD.LLMPredictionResult => p.prediction = false ∧ p.ground_truth = true)
    (fun p => !p.prediction && p.ground_truth)
    (fun a => by simp [Bool.and_eq_true, Bool.not_eq_true']) mr.predictions
  refine ⟨⟨btp, bfp, btn, bfn, rfl⟩, ?_, ?_, ?_, ?_, ?_⟩
  · rw [evaluateModel_accuracy_def, guard_flip_nat]; rfl
  · rw [evaluateModel_precision_def, guard_flip_nat]; rfl
  · rw [evaluateModel_recall_def, guard_flip_nat]; rfl
  · intro prec rc hprec hrc
    rw [evaluateModel_precision_def] at hprec
    rw [evaluateModel_recall_def] at hrc
    have hprec' := (WithTop.coe_inj.1 hprec.symm)
    have hrc' := (WithTop.coe_inj.1 hrc.symm)
    rw [evaluateModel_f1_def]
    simp only []
    have hp := guarded_fraction_bounds
      (mr.predictions.countP (fun p => p.prediction && p.ground_truth))
      (mr.predictions.countP (fun p => p.prediction && !p.ground_truth))
    have hr := guarded_fraction_bounds
      (mr.predictions.countP (fun p => p.prediction && p.ground_truth))
      (mr.predictions.countP (fun p => !p.prediction && p.ground_truth))
    rw [guard_flip_rat (add_nonneg hp.1 hr.1), ← hprec', ← hrc']
  · refine ⟨rfl, rfl, rfl, rfl, ?_, ?_, ?_, ?_⟩
    · rw [evaluateModel_accuracy_def]
      exact congrArg (fun q : ℚ => (q : PyFloat))
        (by norm_num [RFD.scenarioA, RFD.mkPred])
    · rw [evaluateModel_precision_def]
      exact congrArg (fun q : ℚ => (q : PyFloat))
        (by norm_num [RFD.scenarioA, RFD.mkPred])
    · rw [evaluateModel_recall_def]
      exact congrArg (fun q : ℚ => (q : PyFloat))
        (by norm_num [RFD.scenarioA, RFD.mkPred])
    · rw [evaluateModel_f1_def]
      exact congrArg (fun q : ℚ => (q : PyFloat))
        (by norm_num [RFD.scenarioA, RFD.mkPred])

/-- Coercion from the rationals into `PyFloat` is monotone. -/
theorem pyfloat_coe_le_coe {a b : ℚ} (h : a ≤ b) : (a : PyFloat) ≤ (b : PyFloat) :=
  WithTop.coe_le_coe.2 h

/-- When the valid-pair set is empty (in particular when the prediction list
itself is empty), the regression evaluator returns the degenerate record. -/
theorem evaluateModel_of_no_valid_pairs (sqrt : ℚ → ℚ) (mr : FinCalc.ModelResults)
    (h : mr.predictions.filterMap FinCalc.validPair = []) :
    FinCalc.evaluateModel sqrt mr = FinCalc.emptyMetrics mr := by
  unfold FinCalc.evaluateModel
  by_cases hp : mr.predictions = []
  · rw [if_pos hp]
  · rw [if_neg hp]
    simp only [h, if_true]

/-- Unfolding lemma: the MAPE field in the nonempty-valid-pairs case. -/
theorem evaluateModel_mape_def (sqrt : ℚ → ℚ) (mr : FinCalc.ModelResults)
    (h : mr.predictions.filterMap FinCalc.validPair ≠ []) :
    (FinCalc.evaluateModel sqrt mr).mean_absolute_percentage_error =
      (if ((mr.predictions.filterMap FinCalc.validPair).filter
            (fun pt => pt.2 ≠ 0)).map (fun pt => |(pt.1 - pt.2) / pt.2|) = [] then (⊤ : PyFloat)
       else (((((mr.predictions.filterMap FinCalc.validPair).filter
              (fun pt => pt.2 ≠ 0)).map (fun pt => |(pt.1 - pt.2) / pt.2|)).sum /
            (((((mr.predictions.filterMap FinCalc.validPair).filter
              (fun pt => pt.2 ≠ 0)).map (fun pt => |(pt.1 - pt.2) / pt.2|)).length : ℚ)) * 100 :
            ℚ) : PyFloat)) := by
  have hp : mr.predictions ≠ [] := by
    intro hp
    exact h (by rw [hp]; rfl)
  unfold FinCalc.evaluateModel
  rw [if_neg hp]
  simp only [h, if_false]

/-- Unfolding lemma: the three threshold-accuracy fields in the
nonempty-valid-pairs case. -/
theorem evaluateModel_accuracy_within_def (sqrt : ℚ → ℚ) (mr : FinCalc.ModelResults)
    (h : mr.predictions.filterMap FinCalc.validPair ≠ []) :
    (FinCalc.evaluateModel sqrt mr).accuracy_within_5_percent =
      ((FinCalc.calculatePercentageAccuracy (mr.predictions.filterMap FinCalc.validPair)
        (5/100) : ℚ) : PyFloat) ∧
    (FinCalc.evaluateModel sqrt mr).accuracy_within_10_percent =
      ((FinCalc.calculatePercentageAccuracy (mr.predictions.filterMap FinCalc.validPair)
        (10/100) : ℚ) : PyFloat) ∧
    (FinCalc.evaluateModel sqrt mr).accuracy_within_20_percent =
      ((FinCalc.calculatePercentageAccuracy (mr.predictions.filterMap FinCalc.validPair)
        (20/100) : ℚ) : PyFloat) := by
  have hp : mr.predictions ≠ [] := by
    intro hp
    exact h (by rw [hp]; rfl)
  unfold FinCalc.evaluateModel
  rw [if_neg hp]
  simp only [h, if_false]
  refine ⟨?_, ?_, ?_⟩ <;> trivial

/-- The threshold-accuracy percentage is monotone in the threshold. -/
theorem calculatePercentageAccuracy_mono (vp : List (ℚ × ℚ)) {t1 t2 : ℚ} (h : t1 ≤ t2) :
    FinCalc.calculatePercentageAccuracy vp t1 ≤ FinCalc.calculatePercentageAccuracy vp t2 := by
  unfold FinCalc.calculatePercentageAccuracy
  split_ifs with he
  · exact le_refl 0
  · have hcount : vp.countP (fun pt => if pt.2 = 0 then pt.1 = 0
        else |(pt.1 - pt.2) / pt.2| ≤ t1) ≤
        vp.countP (fun pt => if pt.2 = 0 then pt.1 = 0 else |(pt.1 - pt.2) / pt.2| ≤ t2) := by
      apply List.countP_mono_left
      intro a _ hpa
      by_cases h0 : a.2 = 0
      · rw [if_pos h0] at hpa ⊢
        exact hpa
      · rw [if_neg h0] at hpa ⊢
        rw [decide_eq_true_eq] at hpa ⊢
        exact le_trans hpa h
    have hlen : (0 : ℚ) < ((vp.length : ℕ) : ℚ) := by
      exact_mod_cast List.length_pos.2 he
    apply mul_le_mul_of_nonneg_right _ (by norm_num : (0 : ℚ) ≤ 100)
    rw [div_eq_mul_inv, div_eq_mul_inv]
    apply mul_le_mul_of_nonneg_right _ (inv_nonneg.2 hlen.le)
    exact_mod_cast hcount

/-- A percentage computed as a dominated count over a positive total, times
one hundred, lies in [0, 100]. -/
theorem percent_ratio_bounds {c L : ℕ} (hc : c ≤ L) (hL : 0 < L) :
    0 ≤ ((c : ℚ) / (L : ℚ)) * 100 ∧ ((c : ℚ) / (L : ℚ)) * 100 ≤ 100 := by
  have hLq : (0 : ℚ) < (L : ℚ) := by exact_mod_cast hL
  constructor
  · positivity
  · have h1 : (c : ℚ) / (L : ℚ) ≤ 1 := by
      rw [div_le_one hLq]
      exact_mod_cast hc
    have h2 := mul_le_mul_of_nonneg_right h1 (by norm_num : (0 : ℚ) ≤ 100)
    simpa using h2

/-- The threshold-accuracy percentage lies in [0, 100]. -/
theorem calculatePercentageAccuracy_bounds (vp : List (ℚ × ℚ)) (t : ℚ) :
    0 ≤ FinCalc.calculatePercentageAccuracy vp t ∧
      FinCalc.calculatePercentageAccuracy vp t ≤ 100 := by
  unfold FinCalc.calculatePercentageAccuracy
  split_ifs with he
  · norm_num
  · exact percent_ratio_bounds (List.countP_le_length _)
      (List.length_pos.2 he)

/-- C10: the regression evaluator's threshold accuracies are monotone in the
threshold (5 percent, then 10, then 20) and each lies in [0, 100]. -/
theorem C10_threshold_accuracies_monotone (sqrt : ℚ → ℚ) (mr : FinCalc.ModelResults) :
    ((FinCalc.evaluateModel sqrt mr).accuracy_within_5_percent ≤
        (FinCalc.evaluateModel sqrt mr).accuracy_within_10_percent ∧
      (FinCalc.evaluateModel sqrt mr).accuracy_within_10_percent ≤
        (FinCalc.evaluateModel sqrt mr).accuracy_within_20_percent) ∧
    (0 ≤ (FinCalc.evaluateModel sqrt mr).accuracy_within_5_percent ∧
      (FinCalc.evaluateModel sqrt mr).accuracy_within_5_percent ≤ ((100 : ℚ) : PyFloat)) ∧
    (0 ≤ (FinCalc.evaluateModel sqrt mr).accuracy_within_10_percent ∧
      (FinCalc.evaluateModel sqrt mr).accuracy_within_10_percent ≤ ((100 : ℚ) : PyFloat)) ∧
    (0 ≤ (FinCalc.evaluateModel sqrt mr).accuracy_within_20_percent ∧
      (FinCalc.evaluateModel sqrt mr).accuracy_within_20_percent ≤ ((100 : ℚ) : PyFloat)) := by
  by_cases hvp : mr.predictions.filterMap FinCalc.validPair = []
  · rw [evaluateModel_of_no_valid_pairs sqrt mr hvp]
    refine ⟨⟨le_refl _, le_refl _⟩, ?_, ?_, ?_⟩ <;>
      exact ⟨pyfloat_coe_le_coe (by norm_num), pyfloat_coe_le_coe (by norm_num)⟩
  · obtain ⟨h5, h10, h20⟩ := evaluateModel_accuracy_within_def sqrt mr hvp
    rw [h5, h10, h20]
    have b5 := calculatePercentageAccuracy_bounds (mr.predictions.filterMap FinCalc.validPair)
      (5/100)
    have b10 := calculatePercentageAccuracy_bounds (mr.predictions.filterMap FinCalc.validPair)
      (10/100)
    have b20 := calculatePercentageAccuracy_bounds (mr.predictions.filterMap FinCalc.validPair)
      (20/100)
    refine ⟨⟨pyfloat_coe_le_coe (calculatePercentageAccuracy_mono _ (by norm_num)),
        pyfloat_coe_le_coe (calculatePercentageAccuracy_mono _ (by norm_num))⟩,
      ⟨?_, pyfloat_coe_le_coe b5.2⟩, ⟨?_, pyfloat_coe_le_coe b10.2⟩,
      ⟨?_, pyfloat_coe_le_coe b20.2⟩⟩
    · rw [← WithTop.coe_zero]
      exact pyfloat_coe_le_coe b5.1
    · rw [← WithTop.coe_zero]
      exact pyfloat_coe_le_coe b10.1
    · rw [← WithTop.coe_zero]
      exact pyfloat_coe_le_coe b20.1

/-- C4: on an empty prediction list the classification metrics are all zero;
on an empty valid-pair set the regression metrics are the infinite/zero
sentinels, and neither evaluator can fail. -/
theorem C4_degenerate_empty_input (mrc : RFD.ModelResults) (sqrt : ℚ → ℚ)
    (mrr : FinCalc.ModelResults) (hc : mrc.predictions = [])
    (hr : mrr.predictions.filterMap FinCalc.validPair = []) :
    (((RFD.evaluateModel mrc).total_predictions = 0 ∧
        (RFD.evaluateModel mrc).correct_predictions = 0 ∧
        (RFD.evaluateModel mrc).true_positives = 0 ∧
        (RFD.evaluateModel mrc).false_positives = 0 ∧
        (RFD.evaluateModel mrc).true_negatives = 0 ∧
        (RFD.evaluateModel mrc).false_negatives = 0) ∧
      ((RFD.evaluateModel mrc).accuracy = 0 ∧
        (RFD.evaluateModel mrc).precision = 0 ∧
        (RFD.evaluateModel mrc).«recall» = 0 ∧
        (RFD.evaluateModel mrc).f1_score = 0)) ∧
    (((FinCalc.evaluateModel sqrt mrr).mean_absolute_error = ⊤ ∧
        (FinCalc.evaluateModel sqrt mrr).mean_squared_error = ⊤ ∧
        (FinCalc.evaluateModel sqrt mrr).root_mean_squared_error = ⊤ ∧
        (FinCalc.evaluateModel sqrt mrr).mean_absolute_percentage_error = ⊤) ∧
      ((FinCalc.evaluateModel sqrt mrr).r_squared = 0 ∧
        (FinCalc.evaluateModel sqrt mrr).accuracy_within_5_percent = 0 ∧
        (FinCalc.evaluateModel sqrt mrr).accuracy_within_10_percent = 0 ∧
        (FinCalc.evaluateModel sqrt mrr).accuracy_within_20_percent = 0 ∧
        (FinCalc.evaluateModel sqrt mrr).total_predictions = 0)) := by
  constructor
  · constructor
    · simp [RFD.evaluateModel, hc]
    · simp [RFD.evaluateModel, hc]
  · rw [evaluateModel_of_no_valid_pairs sqrt mrr hr]
    refine ⟨⟨rfl, rfl, rfl, rfl⟩, ?_, ?_, ?_, ?_, rfl⟩ <;> exact WithTop.coe_zero

/-- Witness for C4 at the empty classification result set and at a nonempty
regression result set all of whose pairs are missing a value. -/
theorem C4_degenerate_empty_input_witness :
    (RFD.emptyModelResults.predictions = [] ∧
      FinCalc.allMissingModelResults.predictions.filterMap FinCalc.validPair = []) ∧
    ((RFD.evaluateModel RFD.emptyModelResults).accuracy = 0 ∧
      (RFD.evaluateModel RFD.emptyModelResults).f1_score = 0) ∧
    ((FinCalc.evaluateModel id FinCalc.allMissingModelResults).mean_absolute_error = ⊤ ∧
      (FinCalc.evaluateModel id FinCalc.allMissingModelResults).r_squared = 0) :=
  ⟨⟨rfl, rfl⟩,
    ⟨(C4_degenerate_empty_input RFD.emptyModelResults id FinCalc.allMissingModelResults rfl
        rfl).1.2.1,
      (C4_degenerate_empty_input RFD.emptyModelResults id FinCalc.allMissingModelResults rfl
        rfl).1.2.2.2.2⟩,
    ⟨(C4_degenerate_empty_input RFD.emptyModelResults id FinCalc.allMissingModelResults rfl
        rfl).2.1.1,
      (C4_degenerate_empty_input RFD.emptyModelResults id FinCalc.allMissingModelResults rfl
        rfl).2.2.1⟩⟩

/-- C5: the regression evaluator computes MAPE as the mean relative error over
exactly the valid pairs with non-zero ground truth, times 100, returning the
infinite sentinel when no such pair exists; on Scenario C (the single pair
(pred 5, true 0)) MAPE is infinite while the 5-percent threshold accuracy
is 0. -/
theorem C5_mape_over_nonzero_ground_truth (sqrt : ℚ → ℚ) (mr : FinCalc.ModelResults)
    (h : mr.predictions.filterMap FinCalc.validPair ≠ []) :
    ((mr.predictions.filterMap FinCalc.validPair).filter (fun pt => pt.2 ≠ 0) = [] →
      (FinCalc.evaluateModel sqrt mr).mean_absolute_percentage_error = ⊤) ∧
    ((mr.predictions.filterMap FinCalc.validPair).filter (fun pt => pt.2 ≠ 0) ≠ [] →
      (FinCalc.evaluateModel sqrt mr).mean_absolute_percentage_error =
        (((((mr.predictions.filterMap FinCalc.validPair).filter (fun pt => pt.2 ≠ 0)).map
              (fun pt => |(pt.1 - pt.2) / pt.2|)).sum /
            ((((mr.predictions.filterMap FinCalc.validPair).filter
              (fun pt => pt.2 ≠ 0)).length : ℕ) : ℚ) * 100 : ℚ) : PyFloat)) ∧
    ((FinCalc.evaluateModel sqrt
        FinCalc.scenarioCModelResults).mean_absolute_percentage_error = ⊤ ∧
      (FinCalc.evaluateModel sqrt
        FinCalc.scenarioCModelResults).accuracy_within_5_percent = ((0 : ℚ) : PyFloat)) := by
  have hC : FinCalc.scenarioCModelResults.predictions.filterMap FinCalc.validPair =
      [((5 : ℚ), (0 : ℚ))] := rfl
  have hCne : FinCalc.scenarioCModelResults.predictions.filterMap FinCalc.validPair ≠ [] := by
    rw [hC]
    intro hcontra
    exact List.cons_ne_nil _ _ hcontra
  refine ⟨?_, ?_, ?_, ?_⟩
  · intro h0
    rw [evaluateModel_mape_def sqrt mr h, if_pos (by rw [h0]; rfl)]
  · intro h0
    rw [evaluateModel_mape_def sqrt mr h,
      if_neg (by simpa [List.map_eq_nil_iff] using h0)]
    exact congrArg (fun q : ℚ => (q : PyFloat)) (by rw [List.length_map])
  · rw [evaluateModel_mape_def sqrt _ hCne]
    rw [if_pos (by rw [hC]; simp [FinCalc.validPair])]
  · obtain ⟨h5, _, _⟩ := evaluateModel_accuracy_within_def sqrt _ hCne
    rw [h5, hC]
    exact congrArg (fun q : ℚ => (q : PyFloat))
      (by norm_num [FinCalc.calculatePercentageAccuracy])

/-- Witness for C5 at Scenario B (pairs (110, 100) and (90, 100)), whose
valid-pair set is nonempty. -/
theorem C5_mape_over_nonzero_ground_truth_witness :
    FinCalc.scenarioBModelResults.predictions.filterMap FinCalc.validPair ≠ [] ∧
    (FinCalc.evaluateModel id
      FinCalc.scenarioCModelResults).mean_absolute_percentage_error = ⊤ :=
  ⟨by simp [FinCalc.scenarioBModelResults, FinCalc.mkModelResults, FinCalc.mkPred,
      FinCalc.validPair],
    (C5_mape_over_nonzero_ground_truth id FinCalc.scenarioBModelResults
      (by simp [FinCalc.scenarioBModelResults, FinCalc.mkModelResults, FinCalc.mkPred,
        FinCalc.validPair])).2.2.1⟩

/-- The Python minimum scan returns an element of the scanned list. -/
theorem pyMinBy_mem {α β : Type} [LinearOrder β] (key : α → β) (a : α) (l : List α) :
    pyMinBy key a l ∈ a :: l := by
  induction l generalizing a with
  | nil => simp [pyMinBy]
  | cons x xs ih =>
    rw [pyMinBy]
    rcases List.mem_cons.1 (ih (if key x < key a then x else a)) with h1 | h1
    · rw [h1]
      split_ifs
      · exact List.mem_cons_of_mem _ (List.mem_cons_self _ _)
      · exact List.mem_cons_self _ _
    · exact List.mem_cons_of_mem _ (List.mem_cons_of_mem _ h1)

/-- The Python minimum scan returns an element with minimal key. -/
theorem pyMinBy_le {α β : Type} [LinearOrder β] (key : α → β) (a : α) (l : List α) :
    ∀ x ∈ a :: l, key (pyMinBy key a l) ≤ key x := by
  induction l generalizing a with
  | nil =>
    intro x hx
    rcases List.mem_cons.1 hx with h | h
    · rw [h]
      exact le_refl _
    · exact absurd h (List.not_mem_nil x)
  | cons y ys ih =>
    intro x hx
    rw [pyMinBy]
    have hba : key (if key y < key a then y else a) ≤ key a := by
      split_ifs with hc
      · exact le_of_lt hc
      · exact le_refl _
    have hby : key (if key y < key a then y else a) ≤ key y := by
      split_ifs with hc
      · exact le_refl _
      · exact le_of_not_lt hc
    have hmin := ih (if key y < key a then y else a)
    have hself := hmin _ (List.mem_cons_self _ _)
    rcases List.mem_cons.1 hx with h1 | h1
    · rw [h1]
      exact le_trans hself hba
    · rcases List.mem_cons.1 h1 with h2 | h2
      · rw [h2]
        exact le_trans hself hby
      · exact hmin x (List.mem_cons_of_mem _ h2)

/-- The Python maximum scan returns an element of the scanned list. -/
theorem pyMaxBy_mem {α β : Type} [LinearOrder β] (key : α → β) (a : α) (l : List α) :
    pyMaxBy key a l ∈ a :: l := by
  induction l generalizing a with
  | nil => simp [pyMaxBy]
  | cons x xs ih =>
    rw [pyMaxBy]
    rcases List.mem_cons.1 (ih (if key x > key a then x else a)) with h1 | h1
    · rw [h1]
      split_ifs
      · exact List.mem_cons_of_mem _ (List.mem_cons_self _ _)
      · exact List.mem_cons_self _ _
    · exact List.mem_cons_of_mem _ (List.mem_cons_of_mem _ h1)

/-- The Python maximum scan returns an element with maximal key. -/
theorem pyMaxBy_ge {α β : Type} [LinearOrder β] (key : α → β) (a : α) (l : List α) :
    ∀ x ∈ a :: l, key x ≤ key (pyMaxBy key a l) := by
  induction l generalizing a with
  | nil =>
    intro x hx
    rcases List.mem_cons.1 hx with h | h
    · rw [h]
      exact le_refl _
    · exact absurd h (List.not_mem_nil x)
  | cons y ys ih =>
    intro x hx
    rw [pyMaxBy]
    have hba : key a ≤ key (if key y > key a then y else a) := by
      split_ifs with hc
      · exact le_of_lt hc
      · exact le_refl _
    have hby : key y ≤ key (if key y > key a then y else a) := by
      split_ifs with hc
      · exact le_refl _
      · exact le_of_not_lt hc
    have hmax := ih (if key y > key a then y else a)
    have hself := hmax _ (List.mem_cons_self _ _)
    rcases List.mem_cons.1 hx with h1 | h1
    · rw [h1]
      exact le_trans hba hself
    · rcases List.mem_cons.1 h1 with h2 | h2
      · rw [h2]
        exact le_trans hby hself
      · exact hmax x (List.mem_cons_of_mem _ h2)

/-- Quantifying over the five providers is a five-way disjunction. -/
theorem exists_provider_iff (P : Provider → Prop) :
    (∃ p, P p) ↔ P .openai ∨ P .anthropic ∨ P .gemini ∨ P .kimi ∨ P .deepseek := by
  constructor
  · rintro ⟨p, hp⟩
    cases p <;> tauto
  · rintro (h | h | h | h | h) <;> exact ⟨_, h⟩

/-- Membership in the singleton-or-empty list contributed by one optional
slot. -/
theorem mem_slot_entry {γ : Type} (slot : Option γ) (metric : γ → PyFloat)
    (s name : String) (v : PyFloat) :
    (name, v) ∈ slotEntry slot s metric ↔
      ∃ m, slot = some m ∧ name = s ∧ v = metric m := by
  cases slot <;> simp [slotEntry, Prod.ext_iff]

/-- Membership in the financials judge's `models` list corresponds exactly to
a present backend entry. -/
theorem fincalc_collectModels_mem (results : FinCalc.RegressionComparisonResults)
    (metric : FinCalc.RegressionEvaluationMetrics → PyFloat) (name : String) (v : PyFloat) :
    (name, v) ∈ FinCalc.collectModels results metric ↔
      ∃ p m, results.entryFor p = some m ∧ name = p.name ∧ v = metric m := by
  rw [exists_provider_iff]
  simp [FinCalc.collectModels, mem_slot_entry,
    FinCalc.RegressionComparisonResults.entryFor, Provider.name]

/-- Membership in the red-flag judge's `models` list corresponds exactly to a
present backend entry (kimi/deepseek contribute nothing). -/
theorem rfd_collectModels_mem (results : RFD.ComparisonResults)
    (metric : RFD.ModelEvaluationMetrics → PyFloat) (name : String) (v : PyFloat) :
    (name, v) ∈ RFD.collectModels results metric ↔
      ∃ p m, results.entryFor p = some m ∧ name = p.name ∧ v = metric m := by
  rw [exists_provider_iff]
  simp [RFD.collectModels, mem_slot_entry,
    RFD.ComparisonResults.entryFor, Provider.name]

/-- The financials selector returns `None` exactly when the non-finite filter
leaves nothing of its `models` list. -/
theorem fincalc_findBest_none_iff (results : FinCalc.RegressionComparisonResults)
    (metric : FinCalc.RegressionEvaluationMetrics → PyFloat) (lower : Bool) :
    FinCalc.findBestModelByMetric results metric lower = none ↔
      (FinCalc.collectModels results metric).filter (fun nv => ¬ nv.2.isInf) = [] := by
  unfold FinCalc.findBestModelByMetric
  simp only []
  by_cases hm : FinCalc.collectModels results metric = []
  · rw [if_pos hm, hm]
    simp
  · rw [if_neg hm]
    cases hf : (FinCalc.collectModels results metric).filter (fun nv => ¬ nv.2.isInf) with
    | nil => simp [hf]
    | cons v vs => cases lower <;> simp [hf]

/-- When the financials selector returns a backend, that backend is present,
its metric value is finite, and it is extremal (direction-aware) among the
finite entries. -/
theorem fincalc_findBest_some (results : FinCalc.RegressionComparisonResults)
    (metric : FinCalc.RegressionEvaluationMetrics → PyFloat) (lower : Bool) (b : String)
    (h : FinCalc.findBestModelByMetric results metric lower = some b) :
    ∃ p m, p.name = b ∧ results.entryFor p = some m ∧ ¬ (metric m).isInf ∧
      ∀ p' m', results.entryFor p' = some m' → ¬ (metric m').isInf →
        (if lower then metric m ≤ metric m' else metric m' ≤ metric m) := by
  unfold FinCalc.findBestModelByMetric at h
  simp only [] at h
  by_cases hm : FinCalc.collectModels results metric = []
  · rw [if_pos hm] at h
    exact absurd h (by simp)
  · rw [if_neg hm] at h
    cases hf : (FinCalc.collectModels results metric).filter (fun nv => ¬ nv.2.isInf) with
    | nil =>
      rw [hf] at h
      exact absurd h (by simp)
    | cons v vs =>
      rw [hf] at h
      cases lower with
      | true =>
        simp only [if_true] at h
        have hmem : pyMinBy Prod.snd v vs ∈ v :: vs := pyMinBy_mem _ v vs
        rw [← hf] at hmem
        have hmem' := List.mem_filter.1 hmem
        obtain ⟨p, m, hpm, hname, hval⟩ :=
          (fincalc_collectModels_mem results metric _ _).1
            (by rw [Prod.mk.eta]; exact hmem'.1)
        have hfin : ¬ (pyMinBy Prod.snd v vs).2.isInf := by
          have := hmem'.2
          simpa using this
        refine ⟨p, m, ?_, hpm, by rw [← hval]; exact hfin, ?_⟩
        · rw [← hname]
          exact Option.some.inj h
        · intro p' m' hpm' hfin'
          have hin : (Provider.name p', metric m') ∈ FinCalc.collectModels results metric :=
            (fincalc_collectModels_mem results metric _ _).2 ⟨p', m', hpm', rfl, rfl⟩
          have hinf : (Provider.name p', metric m') ∈
              (FinCalc.collectModels results metric).filter (fun nv => ¬ nv.2.isInf) :=
            List.mem_filter.2 ⟨hin, by simpa using hfin'⟩
          rw [hf] at hinf
          have := pyMinBy_le Prod.snd v vs _ hinf
          simp only [if_true]
          rw [← hval]
          exact this
      | false =>
        simp only [if_false] at h
        have hmem : pyMaxBy Prod.snd v vs ∈ v :: vs := pyMaxBy_mem _ v vs
        rw [← hf] at hmem
        have hmem' := List.mem_filter.1 hmem
        obtain ⟨p, m, hpm, hname, hval⟩ :=
          (fincalc_collectModels_mem results metric _ _).1
            (by rw [Prod.mk.eta]; exact hmem'.1)
        have hfin : ¬ (pyMaxBy Prod.snd v vs).2.isInf := by
          have := hmem'.2
          simpa using this
        refine ⟨p, m, ?_, hpm, by rw [← hval]; exact hfin, ?_⟩
        · rw [← hname]
          exact Option.some.inj h
        · intro p' m' hpm' hfin'
          have hin : (Provider.name p', metric m') ∈ FinCalc.collectModels results metric :=
            (fincalc_collectModels_mem results metric _ _).2 ⟨p', m', hpm', rfl, rfl⟩
          have hinf : (Provider.name p', metric m') ∈
              (FinCalc.collectModels results metric).filter (fun nv => ¬ nv.2.isInf) :=
            List.mem_filter.2 ⟨hin, by simpa using hfin'⟩
          rw [hf] at hinf
          have := pyMaxBy_ge Prod.snd v vs _ hinf
          rw [if_neg Bool.false_ne_true]
          rw [← hval]
          exact this

/-- When the red-flag selector returns a backend, that backend has a present
entry in the comparison record. -/
theorem rfd_findBest_some (results : RFD.ComparisonResults)
    (metric : RFD.ModelEvaluationMetrics → PyFloat) (b : String)
    (h : RFD.findBestModelByMetric results metric = some b) :
    ∃ p m, p.name = b ∧ results.entryFor p = some m := by
  unfold RFD.findBestModelByMetric at h
  cases hM : RFD.collectModels results metric with
  | nil =>
    rw [hM] at h
    exact absurd h (by simp)
  | cons v vs =>
    rw [hM] at h
    simp only [] at h
    have hmem : pyMaxBy Prod.snd v vs ∈ v :: vs := pyMaxBy_mem _ v vs
    rw [← hM] at hmem
    obtain ⟨p, m, hpm, hname, _⟩ :=
      (rfd_collectModels_mem results metric _ _).1 (by rw [Prod.mk.eta]; exact hmem)
    refine ⟨p, m, ?_, hpm⟩
    rw [← hname]
    exact Option.some.inj h

/-- Every metrics entry of the red-flag judge's output comes from
`_evaluate_model`, whose accuracy and f1 values are finite rationals. -/
theorem rfd_evaluate_entry_finite (E : RFD.ExperimentResults) (p : Provider)
    (m : RFD.ModelEvaluationMetrics) (h : (RFD.evaluate E).entryFor p = some m) :
    ¬ m.accuracy.isInf ∧ ¬ m.f1_score.isInf := by
  have hm : ∃ mr, m = RFD.evaluateModel mr := by
    cases p with
    | openai =>
      have h' : E.openai.map RFD.evaluateModel = some m := h
      obtain ⟨mr, _, hmr⟩ := Option.map_eq_some'.1 h'
      exact ⟨mr, hmr.symm⟩
    | anthropic =>
      have h' : E.anthropic.map RFD.evaluateModel = some m := h
      obtain ⟨mr, _, hmr⟩ := Option.map_eq_some'.1 h'
      exact ⟨mr, hmr.symm⟩
    | gemini =>
      have h' : E.gemini.map RFD.evaluateModel = some m := h
      obtain ⟨mr, _, hmr⟩ := Option.map_eq_some'.1 h'
      exact ⟨mr, hmr.symm⟩
    | kimi => exact Option.noConfusion h
    | deepseek => exact Option.noConfusion h
  obtain ⟨mr, hmr⟩ := hm
  subst hmr
  constructor
  · rw [PyFloat.isInf, evaluateModel_accuracy_def]
    exact WithTop.coe_ne_top
  · rw [PyFloat.isInf, evaluateModel_f1_def]
    exact WithTop.coe_ne_top

/-- C3 counterexample: the red-flag selector, given an entry whose accuracy is
infinite alongside a finite competitor, does not discard the infinite entry:
it selects it. -/
theorem C3_ranking_selector_counterexample :
    RFD.findBestModelByMetric RFD.comparisonWithInfAccuracy (fun m => m.accuracy) =
      some "openai" ∧
    RFD.comparisonWithInfAccuracy.entryFor .openai =
      some (RFD.mkMetricsWithAccuracy "openai" ⊤) ∧
    (RFD.mkMetricsWithAccuracy "openai" ⊤).accuracy.isInf ∧
    RFD.comparisonWithInfAccuracy.entryFor .anthropic =
      some (RFD.mkMetricsWithAccuracy "anthropic" ((1 : ℚ) : PyFloat)) ∧
    ¬ (RFD.mkMetricsWithAccuracy "anthropic" ((1 : ℚ) : PyFloat)).accuracy.isInf := by
  refine ⟨rfl, rfl, rfl, rfl, ?_⟩
  rw [PyFloat.isInf]
  exact WithTop.coe_ne_top

/-- C3 amended: the financials selector collects the present backends, returns
`None` exactly when no finite entry exists, and any backend it returns is
present with a finite metric value that is minimal (error metrics) or maximal
(score metrics) among the finite entries; on Scenario D (MAE values 50, ∞, 30)
it picks the backend with 30.  The red-flag selector has no non-finite filter,
but every metric value the classification evaluator supplies to it is a finite
rational, so the best-accuracy/best-f1 backends of its output always carry
finite values. -/
theorem C3_ranking_selector_amended :
    (∀ (results : FinCalc.RegressionComparisonResults)
        (metric : FinCalc.RegressionEvaluationMetrics → PyFloat) (lower : Bool),
      FinCalc.findBestModelByMetric results metric lower = none ↔
        ∀ p m, results.entryFor p = some m → (metric m).isInf) ∧
    (∀ (results : FinCalc.RegressionComparisonResults)
        (metric : FinCalc.RegressionEvaluationMetrics → PyFloat) (lower : Bool) (b : String),
      FinCalc.findBestModelByMetric results metric lower = some b →
        ∃ p m, p.name = b ∧ results.entryFor p = some m ∧ ¬ (metric m).isInf ∧
          ∀ p' m', results.entryFor p' = some m' → ¬ (metric m').isInf →
            (if lower then metric m ≤ metric m' else metric m' ≤ metric m)) ∧
    (FinCalc.findBestModelByMetric FinCalc.scenarioDComparison
      (fun m => m.mean_absolute_error) true = some "gemini") ∧
    (∀ (E : RFD.ExperimentResults) (b : String),
      ((RFD.evaluate E).best_accuracy_model = some b →
        ∃ p m, p.name = b ∧ (RFD.evaluate E).entryFor p = some m ∧ ¬ m.accuracy.isInf) ∧
      ((RFD.evaluate E).best_f1_model = some b →
        ∃ p m, p.name = b ∧ (RFD.evaluate E).entryFor p = some m ∧ ¬ m.f1_score.isInf)) := by
  refine ⟨?_, ?_, ?_, ?_⟩
  · intro results metric lower
    rw [fincalc_findBest_none_iff, List.filter_eq_nil_iff]
    constructor
    · intro hall p m hpm
      have := hall (Provider.name p, metric m)
        ((fincalc_collectModels_mem _ _ _ _).2 ⟨p, m, hpm, rfl, rfl⟩)
      simpa using this
    · intro hall nv hnv
      obtain ⟨p, m, hpm, _, h2⟩ :=
        (fincalc_collectModels_mem results metric nv.1 nv.2).1
          (by rw [Prod.mk.eta]; exact hnv)
      simp [h2, hall p m hpm]
  · intro results metric lower b h
    exact fincalc_findBest_some results metric lower b h
  · rfl
  · intro E b
    constructor
    · intro h
      have h' : RFD.findBestModelByMetric
          { openai := E.openai.map RFD.evaluateModel
            anthropic := E.anthropic.map RFD.evaluateModel
            gemini := E.gemini.map RFD.evaluateModel } (fun m => m.accuracy) = some b := h
      obtain ⟨p, m, hname, hentry⟩ := rfd_findBest_some _ _ _ h'
      have hentry' : (RFD.evaluate E).entryFor p = some m := by
        cases p <;> exact hentry
      exact ⟨p, m, hname, hentry', (rfd_evaluate_entry_finite E p m hentry').1⟩
    · intro h
      have h' : RFD.findBestModelByMetric
          { openai := E.openai.map RFD.evaluateModel
            anthropic := E.anthropic.map RFD.evaluateModel
            gemini := E.gemini.map RFD.evaluateModel } (fun m => m.f1_score) = some b := h
      obtain ⟨p, m, hname, hentry⟩ := rfd_findBest_some _ _ _ h'
      have hentry' : (RFD.evaluate E).entryFor p = some m := by
        cases p <;> exact hentry
      exact ⟨p, m, hname, hentry', (rfd_evaluate_entry_finite E p m hentry').2⟩

/-- Witness for C3 amended: a comparison with one evaluated backend, whose
selected best-accuracy backend carries a finite value. -/
theorem C3_ranking_selector_amended_witness :
    (RFD.evaluate { openai := some RFD.emptyModelResults }).best_accuracy_model =
      some "openai" ∧
    ∃ p m, p.name = "openai" ∧
      (RFD.evaluate { openai := some RFD.emptyModelResults }).entryFor p = some m ∧
      ¬ m.accuracy.isInf :=
  ⟨rfl, (C3_ranking_selector_amended.2.2.2 { openai := some RFD.emptyModelResults }
    "openai").1 rfl⟩

/-- Witness for C2 at Scenario A: the f1 formula evaluated at the concrete
precision 1/2 and recall 1. -/
theorem C2_classification_metric_values_witness :
    (RFD.evaluateModel RFD.scenarioA).precision = ((1/2 : ℚ) : PyFloat) ∧
    (RFD.evaluateModel RFD.scenarioA).«recall» = ((1 : ℚ) : PyFloat) ∧
    (RFD.evaluateModel RFD.scenarioA).f1_score =
      ((if (1/2 : ℚ) + 1 = 0 then 0 else 2 * ((1/2 : ℚ) * 1) / ((1/2 : ℚ) + 1) : ℚ) :
        PyFloat) := by
  have hC := C2_classification_metric_values RFD.scenarioA
  have hprec := hC.2.2.2.2.2.2.2.2.2.2.1
  have hrec := hC.2.2.2.2.2.2.2.2.2.2.2.1
  exact ⟨hprec, hrec, hC.2.2.2.2.1 (1/2) 1 hprec hrec⟩

/-- C6 counterexample: an `ExperimentResults` whose kimi slot is present is
nonetheless absent from the red-flag judge's `ComparisonResults`, which has no
kimi entry at all. -/
theorem C6_present_backends_counterexample :
    RFD.kimiOnlyResults.slot .kimi = some RFD.scenarioA ∧
    (RFD.evaluate RFD.kimiOnlyResults).entryFor .kimi = none := by
  exact ⟨rfl, rfl⟩

/-- C6 amended: the financials judge's output has one metrics entry exactly
for each present backend (an absent backend is omitted, a present one with
zero predictions still appears, with the degenerate metrics of
`_evaluate_model`); the red-flag judge does the same for openai, anthropic and
gemini only, and always omits kimi and deepseek, even when their result sets
are present in `ExperimentResults`. -/
theorem C6_present_backends_amended :
    (∀ (sqrt : ℚ → ℚ) (E : FinCalc.ExperimentResults) (p : Provider),
      (FinCalc.evaluate sqrt E).entryFor p = (E.slot p).map (FinCalc.evaluateModel sqrt)) ∧
    (∀ E : RFD.ExperimentResults,
      (RFD.evaluate E).entryFor .openai = E.openai.map RFD.evaluateModel ∧
      (RFD.evaluate E).entryFor .anthropic = E.anthropic.map RFD.evaluateModel ∧
      (RFD.evaluate E).entryFor .gemini = E.gemini.map RFD.evaluateModel ∧
      (RFD.evaluate E).entryFor .kimi = none ∧
      (RFD.evaluate E).entryFor .deepseek = none) := by
  constructor
  · intro sqrt E p
    cases p <;> rfl
  · intro E
    exact ⟨rfl, rfl, rfl, rfl, rfl⟩

/-- The worker loop is a fold whose final accumulators are: the records of the
`ok` items (in order), the accumulated cost, and the accumulated time. -/
theorem workerLoop_spec {ι ρ π : Type} (mk : ι → ℚ → ℚ → ρ → Option π)
    (items : List (ι × ItemOutcome ρ)) (acc : List π) (tc tt : ℚ) :
    workerLoop mk acc tc tt items =
      (acc ++ items.filterMap (okRecord mk),
        tc + (items.map (fun it => it.2.accCost)).sum,
        tt + (items.map (fun it => it.2.accTime)).sum) := by
  induction items generalizing acc tc tt with
  | nil => simp [workerLoop]
  | cons hd tl ih =>
    obtain ⟨it, o⟩ := hd
    cases o with
    | err =>
      simp [workerLoop, ih, okRecord, ItemOutcome.accCost, ItemOutcome.accTime]
    | errAfterTime d =>
      simp [workerLoop, ih, okRecord, ItemOutcome.accCost, ItemOutcome.accTime, add_assoc]
    | noTool c d =>
      simp [workerLoop, ih, okRecord, ItemOutcome.accCost, ItemOutcome.accTime, add_assoc]
    | invalid c d =>
      simp [workerLoop, ih, okRecord, ItemOutcome.accCost, ItemOutcome.accTime, add_assoc]
    | ok c d payload =>
      cases hmk : mk it c d payload with
      | none =>
        simp [workerLoop, hmk, ih, okRecord, ItemOutcome.accCost, ItemOutcome.accTime, add_assoc]
      | some r =>
        simp [workerLoop, hmk, ih, okRecord, ItemOutcome.accCost, ItemOutcome.accTime, add_assoc]

/-- The red-flag openai worker's prediction list is the ordered projection of
the successful items. -/
theorem rfd_callOpenAI_predictions (items : List (RFD.Company × ItemOutcome RFD.RedFlagDetectionOutput)) :
    (RFD.callOpenAI items).predictions =
      items.filterMap (okRecord RFD.mkOpenAIRecord) := by
  unfold RFD.callOpenAI
  rw [workerLoop_spec]
  simp

/-- The red-flag openai worker's averages divide the accumulated cost/time
totals by the number of records. -/
theorem rfd_callOpenAI_averages (items : List (RFD.Company × ItemOutcome RFD.RedFlagDetectionOutput)) :
    (RFD.callOpenAI items).average_cost =
      (if (RFD.callOpenAI items).predictions = [] then 0
        else (items.map (fun it => it.2.accCost)).sum /
          ((RFD.callOpenAI items).predictions.length : ℚ)) ∧
    (RFD.callOpenAI items).average_duration =
      (if (RFD.callOpenAI items).predictions = [] then 0
        else (items.map (fun it => it.2.accTime)).sum /
          ((RFD.callOpenAI items).predictions.length : ℚ)) := by
  unfold RFD.callOpenAI
  rw [workerLoop_spec]
  simp

/-- The financials openai worker's averages divide the accumulated cost/time
totals by the number of records. -/
theorem fincalc_callOpenAI_averages (items : List (FinCalc.Company × ItemOutcome FinCalc.CostOfRevenueCalculationOutput)) :
    (FinCalc.callOpenAI items).average_cost =
      (if (FinCalc.callOpenAI items).predictions = [] then 0
        else (items.map (fun it => it.2.accCost)).sum /
          ((FinCalc.callOpenAI items).predictions.length : ℚ)) ∧
    (FinCalc.callOpenAI items).average_duration =
      (if (FinCalc.callOpenAI items).predictions = [] then 0
        else (items.map (fun it => it.2.accTime)).sum /
          ((FinCalc.callOpenAI items).predictions.length : ℚ)) := by
  unfold FinCalc.callOpenAI
  rw [workerLoop_spec]
  simp

/-- On a run whose every item either succeeds or fails at the client call
itself, the accumulated cost/time totals coincide with the totals over the
records. -/
theorem rfd_ok_or_err_sums (items : List (RFD.Company × ItemOutcome RFD.RedFlagDetectionOutput))
    (h : ∀ it ∈ items, it.2.isOk ∨ it.2 = ItemOutcome.err) :
    (items.map (fun it => it.2.accCost)).sum =
      ((items.filterMap (okRecord RFD.mkOpenAIRecord)).map (fun p => p.cost)).sum ∧
    (items.map (fun it => it.2.accTime)).sum =
      ((items.filterMap (okRecord RFD.mkOpenAIRecord)).map (fun p => p.duration)).sum := by
  induction items with
  | nil => simp
  | cons hd tl ih =>
    have hhd := h hd (List.mem_cons_self _ _)
    have htl := ih (fun it hit => h it (List.mem_cons_of_mem _ hit))
    obtain ⟨it, o⟩ := hd
    cases o with
    | ok c d payload =>
      have hrec : List.filterMap (okRecord RFD.mkOpenAIRecord)
          ((it, ItemOutcome.ok c d payload) :: tl) =
          { ticker := it.ticker, model := "o3", prediction := payload.has_red_flags,
            ground_truth := it.label != "Green Flag", ground_truth_label := it.label,
            reasoning := payload.reasoning, cost := c, duration := d } ::
          List.filterMap (okRecord RFD.mkOpenAIRecord) tl := rfl
      refine ⟨?_, ?_⟩
      · rw [List.map_cons, List.sum_cons, htl.1, hrec, List.map_cons, List.sum_cons]
        rfl
      · rw [List.map_cons, List.sum_cons, htl.2, hrec, List.map_cons, List.sum_cons]
        rfl
    | err =>
      have hrec : List.filterMap (okRecord RFD.mkOpenAIRecord) ((it, ItemOutcome.err) :: tl) =
          List.filterMap (okRecord RFD.mkOpenAIRecord) tl := rfl
      refine ⟨?_, ?_⟩
      · rw [List.map_cons, List.sum_cons, htl.1, hrec]
        simp [ItemOutcome.accCost]
      · rw [List.map_cons, List.sum_cons, htl.2, hrec]
        simp [ItemOutcome.accTime]
    | errAfterTime d =>
      rcases hhd with h1 | h1
      · simp [ItemOutcome.isOk] at h1
      · exact ItemOutcome.noConfusion h1
    | noTool c d =>
      rcases hhd with h1 | h1
      · simp [ItemOutcome.isOk] at h1
      · exact ItemOutcome.noConfusion h1
    | invalid c d =>
      rcases hhd with h1 | h1
      · simp [ItemOutcome.isOk] at h1
      · exact ItemOutcome.noConfusion h1

/-- C7 counterexample: a worker run whose first item succeeds (cost 1,
duration 1) and whose second item returns usage but no tool call (cost 1,
duration 1) reports average_cost 2, although the mean cost over its single
prediction record is 1. -/
theorem C7_average_cost_counterexample :
    (RFD.callOpenAI RFD.itemsOkThenNoTool).average_cost = 2 ∧
    listMean ((RFD.callOpenAI RFD.itemsOkThenNoTool).predictions.map (fun p => p.cost)) = 1 ∧
    (RFD.callOpenAI RFD.itemsOkThenNoTool).average_cost ≠
      listMean ((RFD.callOpenAI RFD.itemsOkThenNoTool).predictions.map (fun p => p.cost)) := by
  have hpl : RFD.itemsOkThenNoTool.filterMap (okRecord RFD.mkOpenAIRecord) =
      [{ ticker := "AAA", model := "o3", prediction := true, ground_truth := false,
         ground_truth_label := "Green Flag", reasoning := "r", cost := 1, duration := 1 }] := rfl
  have hsum : RFD.itemsOkThenNoTool.map (fun it => it.2.accCost) = [1, 1] := rfl
  have h1 : (RFD.callOpenAI RFD.itemsOkThenNoTool).average_cost = 2 := by
    rw [(rfd_callOpenAI_averages RFD.itemsOkThenNoTool).1,
      rfd_callOpenAI_predictions RFD.itemsOkThenNoTool, hpl, hsum]
    norm_num
  have h2 : listMean ((RFD.callOpenAI RFD.itemsOkThenNoTool).predictions.map
      (fun p => p.cost)) = 1 := by
    rw [rfd_callOpenAI_predictions RFD.itemsOkThenNoTool, hpl, listMean]
    norm_num
  refine ⟨h1, h2, ?_⟩
  rw [h1, h2]
  norm_num

/-- C7 amended: each worker's average_cost/average_duration divide the
accumulated totals — which include the cost and time of calls whose items were
later skipped (no tool call, failed validation) — by the number of prediction
records, with 0 when there are no records; the averages agree with the mean
over the records exactly as the claim states when every item either produced a
record or failed at the call itself. -/
theorem C7_average_cost_amended :
    (∀ items, (RFD.callOpenAI items).average_cost =
        (if (RFD.callOpenAI items).predictions = [] then 0
          else (items.map (fun it => it.2.accCost)).sum /
            ((RFD.callOpenAI items).predictions.length : ℚ)) ∧
      (RFD.callOpenAI items).average_duration =
        (if (RFD.callOpenAI items).predictions = [] then 0
          else (items.map (fun it => it.2.accTime)).sum /
            ((RFD.callOpenAI items).predictions.length : ℚ))) ∧
    (∀ items, (FinCalc.callOpenAI items).average_cost =
        (if (FinCalc.callOpenAI items).predictions = [] then 0
          else (items.map (fun it => it.2.accCost)).sum /
            ((FinCalc.callOpenAI items).predictions.length : ℚ)) ∧
      (FinCalc.callOpenAI items).average_duration =
        (if (FinCalc.callOpenAI items).predictions = [] then 0
          else (items.map (fun it => it.2.accTime)).sum /
            ((FinCalc.callOpenAI items).predictions.length : ℚ))) ∧
    (∀ items, (∀ it ∈ items, it.2.isOk ∨ it.2 = ItemOutcome.err) →
      (RFD.callOpenAI items).average_cost =
        listMean ((RFD.callOpenAI items).predictions.map (fun p => p.cost)) ∧
      (RFD.callOpenAI items).average_duration =
        listMean ((RFD.callOpenAI items).predictions.map (fun p => p.duration))) := by
  refine ⟨rfd_callOpenAI_averages, fincalc_callOpenAI_averages, ?_⟩
  intro items h
  have havg := rfd_callOpenAI_averages items
  have hsums := rfd_ok_or_err_sums items h
  have hpred := rfd_callOpenAI_predictions items
  constructor
  · rw [havg.1, listMean]
    by_cases hnil : (RFD.callOpenAI items).predictions = []
    · simp [hnil]
    · rw [if_neg hnil, if_neg (by simpa using hnil)]
      rw [hpred, hsums.1, List.length_map]
  · rw [havg.2, listMean]
    by_cases hnil : (RFD.callOpenAI items).predictions = []
    · simp [hnil]
    · rw [if_neg hnil, if_neg (by simpa using hnil)]
      rw [hpred, hsums.2, List.length_map]

/-- Witness for C7 amended at a run with two successes and one client-side
failure. -/
theorem C7_average_cost_amended_witness :
    (∀ it ∈ RFD.itemsAllOkOrErr, it.2.isOk ∨ it.2 = ItemOutcome.err) ∧
    (RFD.callOpenAI RFD.itemsAllOkOrErr).average_cost =
      listMean ((RFD.callOpenAI RFD.itemsAllOkOrErr).predictions.map (fun p => p.cost)) :=
  ⟨by decide, (C7_average_cost_amended.2.2 RFD.itemsAllOkOrErr (by decide)).1⟩

/-- C8: a per-item failure only skips that item: the record list is exactly
the ordered projection of the successful items, so each input item yields at
most one record, records only come from dispatched items, and their order
follows the input order. -/
theorem C8_per_item_failure_isolation (items : List (RFD.Company × ItemOutcome RFD.RedFlagDetectionOutput)) :
    (RFD.callOpenAI items).predictions = items.filterMap (okRecord RFD.mkOpenAIRecord) ∧
    List.Sublist ((RFD.callOpenAI items).predictions.map (fun p => p.ticker))
      (items.map (fun it => it.1.ticker)) := by
  refine ⟨rfd_callOpenAI_predictions items, ?_⟩
  rw [rfd_callOpenAI_predictions items]
  induction items with
  | nil => simp
  | cons hd tl ih =>
    obtain ⟨it, o⟩ := hd
    cases o with
    | ok c d payload =>
      simp only [List.filterMap_cons, okRecord, RFD.mkOpenAIRecord, List.map_cons]
      exact List.Sublist.cons₂ _ ih
    | err =>
      simp only [List.filterMap_cons, okRecord, List.map_cons]
      exact List.Sublist.cons _ ih
    | errAfterTime d =>
      simp only [List.filterMap_cons, okRecord, List.map_cons]
      exact List.Sublist.cons _ ih
    | noTool c d =>
      simp only [List.filterMap_cons, okRecord, List.map_cons]
      exact List.Sublist.cons _ ih
    | invalid c d =>
      simp only [List.filterMap_cons, okRecord, List.map_cons]
      exact List.Sublist.cons _ ih

/-- Reading a provider's key out of the results dict gives that worker's
stored outcome, whatever the completion order was. -/
theorem dictGet_gather {μ : Type} (order : List Provider)
    (outcome : Provider → WorkerOutcome μ) (p : Provider) (hp : p ∈ order) :
    dictGet (gatherResults order outcome) p = (outcome p).toOption := by
  induction order with
  | nil => exact absurd hp (List.not_mem_nil p)
  | cons q rest ih =>
    rw [gatherResults, List.map_cons, dictGet]
    by_cases hq : q = p
    · rw [if_pos hq, hq]
    · rw [if_neg hq]
      have hp' : p ∈ rest := by
        rcases List.mem_cons.1 hp with h1 | h1
        · exact absurd h1.symm hq
        · exact h1
      exact ih hp'

/-- C1: whatever the order in which the five workers complete, the dispatcher
of either experiment returns one slot per backend, equal to that worker's
result — or absent exactly when that worker's loop raised — and other
backends' slots are unaffected; being a total function, `run` itself cannot
fail. -/
theorem C1_dispatcher_isolates_worker_failure (order : List Provider)
    (hperm : order.Perm Provider.all)
    (oc : Provider → WorkerOutcome RFD.ModelResults)
    (od : Provider → WorkerOutcome FinCalc.ModelResults) :
    (∀ p, (RFD.run order oc).slot p = (oc p).toOption) ∧
    (∀ p, (FinCalc.run order od).slot p = (od p).toOption) := by
  have hmem : ∀ p : Provider, p ∈ order := by
    intro p
    apply hperm.mem_iff.2
    cases p <;> simp [Provider.all]
  constructor
  · intro p
    cases p <;> exact dictGet_gather order oc _ (hmem _)
  · intro p
    cases p <;> exact dictGet_gather order od _ (hmem _)

/-- Witness for C1: a completion order opposite to submission order, with the
anthropic worker raising; its slot is absent while openai's survives. -/
theorem C1_dispatcher_isolates_worker_failure_witness :
    ([Provider.deepseek, .kimi, .gemini, .anthropic, .openai].Perm Provider.all) ∧
    ((RFD.run [Provider.deepseek, .kimi, .gemini, .anthropic, .openai]
        (fun p => match p with
          | .anthropic => WorkerOutcome.raised "auth"
          | _ => WorkerOutcome.ok RFD.emptyModelResults)).slot .anthropic = none ∧
      (RFD.run [Provider.deepseek, .kimi, .gemini, .anthropic, .openai]
        (fun p => match p with
          | .anthropic => WorkerOutcome.raised "auth"
          | _ => WorkerOutcome.ok RFD.emptyModelResults)).slot .openai =
        some RFD.emptyModelResults) := by
  have hperm : ([Provider.deepseek, .kimi, .gemini, .anthropic, .openai].Perm Provider.all) := by
    decide
  refine ⟨hperm, ?_, ?_⟩
  · exact (C1_dispatcher_isolates_worker_failure _ hperm
      (fun p => match p with
        | .anthropic => WorkerOutcome.raised "auth"
        | _ => WorkerOutcome.ok RFD.emptyModelResults)
      (fun _ => WorkerOutcome.ok (FinCalc.mkModelResults []))).1 .anthropic
  · exact (C1_dispatcher_isolates_worker_failure _ hperm
      (fun p => match p with
        | .anthropic => WorkerOutcome.raised "auth"
        | _ => WorkerOutcome.ok RFD.emptyModelResults)
      (fun _ => WorkerOutcome.ok (FinCalc.mkModelResults []))).1 .openai

end LLMEval
